import Mathlib

/-!
Verification of the NiemaFS container decoders (ISO 9660 and GameCube GCM)
against their specification.  The Python sources (`niemafs/common.py`,
`niemafs/iso.py`, `niemafs/gcm.py`) are shallowly embedded: the seekable
file object becomes an explicit `ByteSource` record, exceptions become an
explicit `PyErr` sum, `warnings.warn` calls become an explicit warning list,
and the two generators become functions returning the list of yielded
entries (the ISO traversal takes a fuel parameter because the source's
outer `while` loop is not structurally bounded).
-/

/-- Python exception classes that the embedded code can raise.
`fuelOut` is not a Python exception: it marks that the fuel of the
embedded ISO traversal ran out before the loop finished. -/
inductive PyErr where
  | valueError
  | indexError
  | typeError
  | structError
  | importError (name : String)
  | notImplementedError
  | unicodeDecodeError
  | fuelOut
deriving DecidableEq, Repr

/-- Diagnostics emitted through `warnings.warn` while parsing.  The source
only ever warns about a string field or a date/time field that failed to
decode; there is no warning constructor for an endianness mismatch because
no `warn` call in the source mentions one. -/
inductive Warning where
  | stringField (field : String)
  | datetimeField (field : String)
deriving DecidableEq, Repr

/-- A Python `str` (list of code points) or `bytes` (list of byte values):
the source stores raw bytes in a field when decoding the string fails. -/
inductive PyVal where
  | str (s : List Nat)
  | bytes (b : List Nat)
deriving DecidableEq, Repr

/-- The seekable `file`-like object underlying a `FileSystem`: the byte
contents plus the current cursor position. -/
structure ByteSource where
  data : List Nat
  pos : Nat
deriving DecidableEq, Repr

/-- `file.seek(offset)` for a non-negative offset. -/
def fileSeek (f : ByteSource) (offset : Nat) : ByteSource :=
  { f with pos := offset }

/-- `file.seek(offset)` where the offset is an arbitrary Python integer:
seeking to a negative position raises `ValueError`. -/
def fileSeekI (f : ByteSource) (offset : Int) : Except PyErr ByteSource :=
  if offset < 0 then .error .valueError else .ok { f with pos := offset.toNat }

/-- `file.read(length)` for a non-negative length: returns at most `length`
bytes starting at the cursor (fewer near the end of the data, none past it)
and advances the cursor by the number of bytes actually returned. -/
def fileRead (f : ByteSource) (length : Nat) : List Nat × ByteSource :=
  let out := (f.data.drop f.pos).take length
  (out, { f with pos := f.pos + out.length })

/-- `file.read(length)` where the length is an arbitrary Python integer:
a negative length reads everything from the cursor to the end. -/
def fileReadI (f : ByteSource) (length : Int) : List Nat × ByteSource :=
  let out := if length < 0 then f.data.drop f.pos else (f.data.drop f.pos).take length.toNat
  (out, { f with pos := f.pos + out.length })

/-- `FileSystem.read_file` (common.py lines 65-84): optionally remember the
cursor, seek to `offset`, read `length` bytes, optionally seek back.
Returns the read bytes and the resulting file object. -/
def read_file (f : ByteSource) (offset length : Nat) (return_to_init : Bool) :
    List Nat × ByteSource :=
  let start_offset := f.pos
  let f1 := fileSeek f offset
  let (out, f2) := fileRead f1 length
  if return_to_init then (out, fileSeek f2 start_offset) else (out, f2)

/-- Little-endian 32-bit `struct.unpack('<I', _)` on an exact 4-byte slice
(callers guard the slice length; `unpack` raises on any other length). -/
def le32 (b : List Nat) : Nat :=
  b.getD 0 0 + 256 * b.getD 1 0 + 65536 * b.getD 2 0 + 16777216 * b.getD 3 0

/-- Big-endian 32-bit `struct.unpack('>I', _)` on an exact 4-byte slice. -/
def be32 (b : List Nat) : Nat :=
  16777216 * b.getD 0 0 + 65536 * b.getD 1 0 + 256 * b.getD 2 0 + b.getD 3 0

/-- Little-endian 16-bit `struct.unpack('<H', _)` on an exact 2-byte slice. -/
def le16 (b : List Nat) : Nat := b.getD 0 0 + 256 * b.getD 1 0

/-- Big-endian 16-bit `struct.unpack('>H', _)` on an exact 2-byte slice. -/
def be16 (b : List Nat) : Nat := 256 * b.getD 0 0 + b.getD 1 0

/-- Python slice `l[a:b]` for `0 <= a <= b`. -/
def pySlice (l : List Nat) (a b : Nat) : List Nat := (l.drop a).take (b - a)

/-- Strict UTF-8 decoding (the behaviour of Python `bytes.decode()`):
returns the code points, or `none` when the bytes are not valid UTF-8
(continuation-byte errors, overlong forms, surrogates, out-of-range). -/
def utf8Decode : List Nat → Option (List Nat)
  | [] => some []
  | c1 :: t =>
    if c1 < 0x80 then (utf8Decode t).map (c1 :: ·)
    else if 0xC2 ≤ c1 && c1 ≤ 0xDF then
      match t with
      | c2 :: t2 =>
        if 0x80 ≤ c2 && c2 ≤ 0xBF then
          (utf8Decode t2).map (((c1 - 0xC0) * 64 + (c2 - 0x80)) :: ·)
        else none
      | _ => none
    else if 0xE0 ≤ c1 && c1 ≤ 0xEF then
      match t with
      | c2 :: c3 :: t3 =>
        let lo2 := if c1 = 0xE0 then 0xA0 else 0x80
        let hi2 := if c1 = 0xED then 0x9F else 0xBF
        if lo2 ≤ c2 && c2 ≤ hi2 && 0x80 ≤ c3 && c3 ≤ 0xBF then
          (utf8Decode t3).map
            (((c1 - 0xE0) * 4096 + (c2 - 0x80) * 64 + (c3 - 0x80)) :: ·)
        else none
      | _ => none
    else if 0xF0 ≤ c1 && c1 ≤ 0xF4 then
      match t with
      | c2 :: c3 :: c4 :: t4 =>
        let lo2 := if c1 = 0xF0 then 0x90 else 0x80
        let hi2 := if c1 = 0xF4 then 0x8F else 0xBF
        if lo2 ≤ c2 && c2 ≤ hi2 && 0x80 ≤ c3 && c3 ≤ 0xBF && 0x80 ≤ c4 && c4 ≤ 0xBF then
          (utf8Decode t4).map
            (((c1 - 0xF0) * 262144 + (c2 - 0x80) * 4096 + (c3 - 0x80) * 64 + (c4 - 0x80)) :: ·)
        else none
      | _ => none
    else none

/-- Code points stripped by Python `str.rstrip()` with no argument. -/
def pyIsSpace (c : Nat) : Bool :=
  c ∈ [9, 10, 11, 12, 13, 28, 29, 30, 31, 32, 0x85, 0xA0, 0x1680,
       0x2000, 0x2001, 0x2002, 0x2003, 0x2004, 0x2005, 0x2006, 0x2007,
       0x2008, 0x2009, 0x200A, 0x2028, 0x2029, 0x202F, 0x205F, 0x3000]

/-- Drop trailing elements satisfying `p` (`rstrip`). -/
def rstripBy (p : Nat → Bool) (l : List Nat) : List Nat :=
  (l.reverse.dropWhile p).reverse

/-- `IsoFS.clean_string` (iso.py lines 29-38):
`s.rstrip(b'\x00').decode().rstrip()`.  `none` when `decode` raises. -/
def clean_string (s : List Nat) : Option (List Nat) :=
  (utf8Decode (rstripBy (· = 0) s)).map (rstripBy pyIsSpace)

/-- Decimal digit list of a natural number. -/
def natDigits (n : Nat) : List Nat :=
  (Nat.toDigits 10 n).map (fun c => c.toNat - 48)

/-- Python `str(x).zfill(2)`. -/
def zfill2 (n : Nat) : List Nat := if n < 10 then [0, n] else natDigits n

/-- Numeric value of the digit run `l[a:b]`. -/
def digitsAt (l : List Nat) (a b : Nat) : Nat :=
  (pySlice l a b).foldl (fun acc d => 10 * acc + d) 0

/-- Gregorian leap year (as validated by `datetime`). -/
def isLeap (y : Nat) : Bool := (y % 4 = 0 && y % 100 ≠ 0) || y % 400 = 0

/-- Days in a month as validated by `datetime`. -/
def daysInMonth (y m : Nat) : Nat :=
  if m = 2 then (if isLeap y then 29 else 28)
  else if m = 4 || m = 6 || m = 9 || m = 11 then 30 else 31

/-- Whether `datetime.strptime(s, '%Y%m%d%H%M%S%f')` succeeds on the given
digit string: the greedy match fixes the field boundaries at 4/2/2/2/2/2
digits with `%f` absorbing the remaining 1 to 6 digits, then the field
values are validated by the `datetime` constructor. -/
def strptimeDigitsOk (s : List Nat) : Bool :=
  15 ≤ s.length && s.length ≤ 20 &&
  1 ≤ digitsAt s 4 6 && digitsAt s 4 6 ≤ 12 &&
  1 ≤ digitsAt s 6 8 && digitsAt s 6 8 ≤ daysInMonth (digitsAt s 0 4) (digitsAt s 4 6) &&
  digitsAt s 8 10 ≤ 23 && digitsAt s 10 12 ≤ 59 && digitsAt s 12 14 ≤ 59

/-- The digit string built by `IsoFS.parse_directory_datetime` (iso.py
lines 73-87) from a 7-byte directory-record date/time before the `strptime`
calls: `str(data[0] + 1900)` then `str(x).zfill(2)` for `data[1:6]`, with
`'0000'` appended (the timezone suffix of the first attempt matches or
fails independently and a failure falls back to the no-timezone parse). -/
def dirDtDigits (b : List Nat) : List Nat :=
  natDigits (b.getD 0 0 + 1900) ++ zfill2 (b.getD 1 0) ++ zfill2 (b.getD 2 0) ++
  zfill2 (b.getD 3 0) ++ zfill2 (b.getD 4 0) ++ zfill2 (b.getD 5 0) ++ [0, 0, 0, 0]

/-- Whether `IsoFS.parse_directory_datetime` succeeds on the 7 raw bytes. -/
def dirDatetimeOk (b : List Nat) : Bool :=
  b.length = 7 && strptimeDigitsOk (dirDtDigits b)

/-- The recording date/time carried by a yielded entry: the `datetime`
value when `parse_directory_datetime` succeeded (a pure deterministic
function of the 7 raw bytes, which we carry instead of the calendar
object), or the raw bytes when the parse failed and the source warned. -/
inductive TsVal where
  | parsed (raw : List Nat)
  | raw (raw : List Nat)
deriving DecidableEq, Repr

/-- The eight boolean file flags of a directory record (iso.py 117-126). -/
structure FileFlags where
  is_hidden : Bool
  is_directory : Bool
  is_associated_file : Bool
  format_in_extended_attribute : Bool
  permissions_in_extended_attribute : Bool
  reserved_5 : Bool
  reserved_6 : Bool
  not_final_directory : Bool
deriving DecidableEq, Repr

/-- An ISO 9660 directory record as parsed by
`IsoFS.parse_directory_record` (iso.py lines 89-143). -/
structure DirRecord where
  directory_record_length : Nat
  extended_attribute_record_length : Nat
  data_location_LE : Nat
  data_location_BE : Nat
  data_length_LE : Nat
  data_length_BE : Nat
  datetime : TsVal
  file_flags : FileFlags
  interleave_file_unit_size : Nat
  interleave_gap_size : Nat
  volume_sequence_number_LE : Nat
  volume_sequence_number_BE : Nat
  filename_length : Nat
  filename : PyVal
deriving DecidableEq, Repr

instance : Inhabited DirRecord :=
  ⟨⟨0, 0, 0, 0, 0, 0, .raw [], ⟨false, false, false, false, false, false, false, false⟩,
    0, 0, 0, 0, 0, .bytes []⟩⟩

/-- `IsoFS.parse_directory_record` (iso.py lines 89-143).  Indexing
`data[k]` raises `IndexError` past the end and `struct.unpack` raises on a
slice that is not exactly 4 (resp. 2) bytes, so any input shorter than 33
bytes raises; the error constructor follows the first failing operation in
source order.  The string and date/time cleaning steps are wrapped in bare
`except` clauses in the source: a failure warns and keeps the raw bytes. -/
def parse_directory_record (data : List Nat) : Except PyErr (DirRecord × List Warning) :=
  if data.length < 2 then .error .indexError
  else if data.length < 18 then .error .structError
  else if data.length < 26 then .error .indexError
  else if data.length < 32 then .error .structError
  else if data.length < 33 then .error .indexError
  else
    let flagsByte := data.getD 25 0
    let dtRaw := pySlice data 18 25
    let fnLen := data.getD 32 0
    let fnRaw := pySlice data 33 (33 + fnLen)
    let fnClean : PyVal × List Warning :=
      match clean_string fnRaw with
      | some s => (.str s, [])
      | none => (.bytes fnRaw, [.stringField "filename"])
    let dtClean : TsVal × List Warning :=
      if dirDatetimeOk dtRaw then (.parsed dtRaw, [])
      else (.raw dtRaw, [.datetimeField "datetime"])
    .ok ({ directory_record_length := data.getD 0 0
           extended_attribute_record_length := data.getD 1 0
           data_location_LE := le32 (pySlice data 2 6)
           data_location_BE := be32 (pySlice data 6 10)
           data_length_LE := le32 (pySlice data 10 14)
           data_length_BE := be32 (pySlice data 14 18)
           datetime := dtClean.1
           file_flags :=
             { is_hidden := flagsByte / 1 % 2 = 1
               is_directory := flagsByte / 2 % 2 = 1
               is_associated_file := flagsByte / 4 % 2 = 1
               format_in_extended_attribute := flagsByte / 8 % 2 = 1
               permissions_in_extended_attribute := flagsByte / 16 % 2 = 1
               reserved_5 := flagsByte / 32 % 2 = 1
               reserved_6 := flagsByte / 64 % 2 = 1
               not_final_directory := flagsByte / 128 % 2 = 1 }
           interleave_file_unit_size := data.getD 26 0
           interleave_gap_size := data.getD 27 0
           volume_sequence_number_LE := le16 (pySlice data 28 30)
           volume_sequence_number_BE := be16 (pySlice data 30 32)
           filename_length := fnLen
           filename := fnClean.1 },
         fnClean.2 ++ dtClean.2)

theorem fileReadI_pos (f : ByteSource) (n : Int) :
    (fileReadI f n).2.pos = f.pos + (fileReadI f n).1.length := rfl

theorem fileReadI_len_le (f : ByteSource) (n : Int) :
    (fileReadI f n).1.length ≤ f.data.length - f.pos := by
  simp only [fileReadI]
  split
  · simp
  · simp only [List.length_take, List.length_drop]
    omega

theorem fileReadI_ne_nil_pos_lt (f : ByteSource) (n : Int)
    (h : (fileReadI f n).1 ≠ []) : f.pos < f.data.length := by
  by_contra hge
  apply h
  have hd : f.data.drop f.pos = [] := List.drop_eq_nil_of_le (Nat.le_of_not_lt hge)
  simp only [fileReadI, hd]
  split <;> simp

/-- Measure decrease for the volume-descriptor read loop: a non-empty read
strictly advances the cursor without passing the end of the data. -/
theorem fileReadI_measure (f : ByteSource) (n : Int)
    (h : (fileReadI f n).1 ≠ []) :
    (fileReadI f n).2.data.length - (fileReadI f n).2.pos < f.data.length - f.pos := by
  have h1 := fileReadI_pos f n
  have h2 := fileReadI_len_le f n
  have h3 := fileReadI_ne_nil_pos_lt f n h
  have h4 : (fileReadI f n).2.data = f.data := rfl
  have h5 : 1 ≤ (fileReadI f n).1.length := by
    cases hh : (fileReadI f n).1 with
    | nil => exact absurd hh h
    | cons a t => simp
  rw [h4, h1]
  omega

/-- The `IsoFS` object state: the shared file object plus the three caches
initialised in `IsoFS.__init__` (iso.py lines 21-27). -/
structure IsoFS where
  file : ByteSource
  sector_size : Option Int
  system_area : Option (List Nat)
  volume_descriptors : List (Nat × List Nat)
deriving DecidableEq, Repr

/-- `bytes.find`: index of the first occurrence of `needle` in `hay`
starting the numbering at `i` (`none` models Python's `-1`). -/
def findSub (hay needle : List Nat) (i : Nat) : Option Nat :=
  match hay with
  | [] => if needle = [] then some i else none
  | _ :: t => if needle.isPrefixOf hay then some i else findSub t needle (i + 1)

/-- `ISO9660_PVD_MAGIC_WORD`: the ASCII bytes of "CD001" (iso.py line 16). -/
def magicWord : List Nat := [67, 68, 48, 48, 49]

/-- `MAGIC_WORD_SEARCH_SIZE` (iso.py line 17). -/
def MAGIC_WORD_SEARCH_SIZE : Nat := 50000

/-- `needle` occurs at byte offset `i` of `data`. -/
def magicAt (data : List Nat) (i : Nat) : Prop :=
  (data.drop i).take 5 = magicWord

instance (data : List Nat) (i : Nat) : Decidable (magicAt data i) := by
  unfold magicAt; infer_instance

/-- `IsoFS.get_sector_size` (iso.py lines 145-160): on a cache miss, save
the cursor, read the first 50,000 bytes from offset 0, restore the cursor,
locate the magic word, and cache `(magic_word_offset - 1) // 16` (Python
floor division on possibly negative integers, hence `Int.fdiv`).  A missing
magic word raises `ValueError`. -/
def get_sector_size (s : IsoFS) : Except PyErr (Int × IsoFS) :=
  match s.sector_size with
  | some v => .ok (v, s)
  | none =>
    let start_offset := s.file.pos
    let f0 := fileSeek s.file 0
    let rd := fileRead f0 MAGIC_WORD_SEARCH_SIZE
    let f1 := fileSeek rd.2 start_offset
    match findSub rd.1 magicWord 0 with
    | none => .error .valueError
    | some off =>
      let v : Int := Int.fdiv ((off : Int) - 1) 16
      .ok (v, { s with file := f1, sector_size := some v })

/-- Python `dict` assignment `d[k] = v`: replace in place or append. -/
def dictInsert (d : List (Nat × List Nat)) (k : Nat) (v : List Nat) :
    List (Nat × List Nat) :=
  match d with
  | [] => [(k, v)]
  | (k2, v2) :: t => if k2 = k then (k, v) :: t else (k2, v2) :: dictInsert t k v

/-- Python `dict` lookup `d[k]` (keys are unique by construction). -/
def dictGet (d : List (Nat × List Nat)) (k : Nat) : Option (List Nat) :=
  match d with
  | [] => none
  | (k2, v2) :: t => if k2 = k then some v2 else dictGet t k

/-- The `while True` loop of `IsoFS.get_volume_descriptors` (iso.py lines
184-188): read one sector, key it by its first byte, stop at type 255.
Reading an empty chunk means `next_volume_descriptor[0]` raises
`IndexError`.  The sector size is passed as a value because
`self.get_sector_size()` is cached by the time the loop runs.  Each
non-empty read strictly advances the cursor, which bounds the loop by the
remaining bytes. -/
def vdLoop (f : ByteSource) (n : Int) (acc : List (Nat × List Nat)) :
    Except PyErr (List (Nat × List Nat) × ByteSource) :=
  match h : (fileReadI f n).1 with
  | [] => .error .indexError
  | b :: rest =>
    let acc2 := dictInsert acc b (b :: rest)
    if b = 255 then .ok (acc2, (fileReadI f n).2)
    else
      have hlt := fileReadI_measure f n (by rw [h]; exact List.cons_ne_nil _ _)
      vdLoop (fileReadI f n).2 n acc2
termination_by f.data.length - f.pos

/-- Whether the descriptor chain read by `vdLoop` ever observes a sector
whose first byte is 255 before running off the end of the image
(structurally recursive on gas so the kernel can evaluate it; the cursor
advances by at least one byte per step, so `vdChain255` below seeds gas
that cannot run out). -/
def vdChain255Gas (gas : Nat) (f : ByteSource) (n : Int) : Bool :=
  match gas with
  | 0 => false
  | gas + 1 =>
    match (fileReadI f n).1 with
    | [] => false
    | b :: _ => if b = 255 then true else vdChain255Gas gas (fileReadI f n).2 n

/-- Whether the volume-descriptor chain starting at the cursor of `f` with
sector size `n` reaches a type-255 descriptor within the image bounds. -/
def vdChain255 (f : ByteSource) (n : Int) : Bool :=
  vdChain255Gas (f.data.length - f.pos + 1) f n

/-- `IsoFS.get_volume_descriptors` (iso.py lines 175-190): on an empty
cache, save the cursor, seek to sector 16, run the read loop, restore the
cursor and fill the cache.  (On an exception the source leaves a partially
filled cache behind; no claim observes that state, so the model only
propagates the error.) -/
def get_volume_descriptors (s : IsoFS) :
    Except PyErr (List (Nat × List Nat) × IsoFS) :=
  if s.volume_descriptors.length = 0 then
    let start_offset := s.file.pos
    match get_sector_size s with
    | .error e => .error e
    | .ok (ss, s1) =>
      match fileSeekI s1.file (16 * ss) with
      | .error e => .error e
      | .ok f2 =>
        match vdLoop f2 ss s1.volume_descriptors with
        | .error e => .error e
        | .ok (d, f3) =>
          .ok (d, { s1 with file := fileSeek f3 start_offset, volume_descriptors := d })
  else .ok (s.volume_descriptors, s)

/-- `IsoFS.get_primary_volume_descriptor` (iso.py lines 203-212): the
descriptor of type code 1, or `None` on a `KeyError`. -/
def get_primary_volume_descriptor (s : IsoFS) :
    Except PyErr (Option (List Nat) × IsoFS) :=
  match get_volume_descriptors s with
  | .error e => .error e
  | .ok (d, s2) => .ok (dictGet d 1, s2)

/-- One string field cleaned inside a `try`/bare-`except`: on a decode
failure the source warns and keeps the raw bytes. -/
def cleanField (raw : List Nat) (name : String) : PyVal × List Warning :=
  match clean_string raw with
  | some s => (.str s, [])
  | none => (.bytes raw, [.stringField name])

/-- The Primary Volume Descriptor as parsed by
`IsoFS.parse_primary_volume_descriptor` (iso.py lines 277-348).  The four
volume date/time fields are kept as their raw 17-byte slices: the
`parse_pvd_datetime` outcome is a deterministic function of those bytes
that only feeds a local warning, which no claim observes. -/
structure Pvd where
  type_code : Nat
  identifier : PyVal
  version : Nat
  offset_7 : Nat
  system_identifier : PyVal
  volume_identifier : PyVal
  offsets_72_79 : List Nat
  volume_space_size_LE : Nat
  volume_space_size_BE : Nat
  offsets_88_119 : List Nat
  volume_set_size_LE : Nat
  volume_set_size_BE : Nat
  volume_sequence_number_LE : Nat
  volume_sequence_number_BE : Nat
  logical_block_size_LE : Nat
  logical_block_size_BE : Nat
  path_table_size_LE : Nat
  path_table_size_BE : Nat
  location_L_path_table : Nat
  location_optional_L_path_table : Nat
  location_M_path_table : Nat
  location_optional_M_path_table : Nat
  root_directory_entry : DirRecord
  volume_set_identifier : PyVal
  publisher_identifier : PyVal
  data_preparer_identifier : PyVal
  application_identifier : PyVal
  copyright_file_identifier : PyVal
  abstract_file_identifier : PyVal
  bibliographic_file_identifier : PyVal
  volume_creation_datetime : List Nat
  volume_modification_datetime : List Nat
  volume_expiration_datetime : List Nat
  volume_effective_datetime : List Nat
  file_structure_version : Nat
  offset_882 : Nat
  application_used : List Nat
  reserved : List Nat
  error_detection_correction : List Nat
deriving DecidableEq, Repr

/-- The pure field extraction of `IsoFS.parse_primary_volume_descriptor`
(iso.py lines 277-348) on the raw descriptor bytes.  Index accesses and
`struct.unpack` calls fail on descriptors shorter than 883 bytes, with the
error of the first failing operation in source order; the mandatory root
directory record (line 345) is parsed outside any `try` and its failure is
fatal. -/
def pvdParse (pvd : List Nat) : Except PyErr (Pvd × List Warning) :=
  if pvd.length < 8 then .error .indexError
  else if pvd.length < 156 then .error .structError
  else if pvd.length < 883 then .error .indexError
  else
    let idF := cleanField (pySlice pvd 1 6) "identifier"
    let sysF := cleanField (pySlice pvd 8 40) "system_identifier"
    let volF := cleanField (pySlice pvd 40 72) "volume_identifier"
    let vsetF := cleanField (pySlice pvd 190 318) "volume_set_identifier"
    let pubF := cleanField (pySlice pvd 318 446) "publisher_identifier"
    let dataF := cleanField (pySlice pvd 446 574) "data_preparer_identifier"
    let appF := cleanField (pySlice pvd 574 702) "application_identifier"
    let copyF := cleanField (pySlice pvd 702 739) "copyright_file_identifier"
    let absF := cleanField (pySlice pvd 739 776) "abstract_file_identifier"
    let bibF := cleanField (pySlice pvd 776 813) "bibliographic_file_identifier"
    match parse_directory_record (pySlice pvd 156 190) with
    | .error e => .error e
    | .ok (root, rootW) =>
      .ok ({ type_code := pvd.getD 0 0
             identifier := idF.1
             version := pvd.getD 6 0
             offset_7 := pvd.getD 7 0
             system_identifier := sysF.1
             volume_identifier := volF.1
             offsets_72_79 := pySlice pvd 72 80
             volume_space_size_LE := le32 (pySlice pvd 80 84)
             volume_space_size_BE := be32 (pySlice pvd 84 88)
             offsets_88_119 := pySlice pvd 88 120
             volume_set_size_LE := le16 (pySlice pvd 120 122)
             volume_set_size_BE := be16 (pySlice pvd 122 124)
             volume_sequence_number_LE := le16 (pySlice pvd 124 126)
             volume_sequence_number_BE := be16 (pySlice pvd 126 128)
             logical_block_size_LE := le16 (pySlice pvd 128 130)
             logical_block_size_BE := be16 (pySlice pvd 130 132)
             path_table_size_LE := le32 (pySlice pvd 132 136)
             path_table_size_BE := be32 (pySlice pvd 136 140)
             location_L_path_table := le32 (pySlice pvd 140 144)
             location_optional_L_path_table := le32 (pySlice pvd 144 148)
             location_M_path_table := be32 (pySlice pvd 148 152)
             location_optional_M_path_table := be32 (pySlice pvd 152 156)
             root_directory_entry := root
             volume_set_identifier := vsetF.1
             publisher_identifier := pubF.1
             data_preparer_identifier := dataF.1
             application_identifier := appF.1
             copyright_file_identifier := copyF.1
             abstract_file_identifier := absF.1
             bibliographic_file_identifier := bibF.1
             volume_creation_datetime := pySlice pvd 813 830
             volume_modification_datetime := pySlice pvd 830 847
             volume_expiration_datetime := pySlice pvd 847 864
             volume_effective_datetime := pySlice pvd 864 881
             file_structure_version := pvd.getD 881 0
             offset_882 := pvd.getD 882 0
             application_used := pySlice pvd 883 1395
             reserved := pySlice pvd 1395 2048
             error_detection_correction := pvd.drop 2048 },
           idF.2 ++ sysF.2 ++ volF.2 ++ vsetF.2 ++ pubF.2 ++ dataF.2 ++
           appF.2 ++ copyF.2 ++ absF.2 ++ bibF.2 ++ rootW)

/-- `IsoFS.parse_primary_volume_descriptor` on the object state: fetch the
type-1 descriptor (loading and caching the chain on first use) and parse
it; `None` propagates as `None`. -/
def parse_primary_volume_descriptor (s : IsoFS) :
    Except PyErr (Option (Pvd × List Warning) × IsoFS) :=
  match get_primary_volume_descriptor s with
  | .error e => .error e
  | .ok (none, s2) => .ok (none, s2)
  | .ok (some b, s2) =>
    match pvdParse b with
    | .error e => .error e
    | .ok pw => .ok (some pw, s2)

/-- One yielded `(path, datetime, payload)` tuple.  A path is its list of
components (each a Python string as code points); the root is `[]`. -/
structure Entry where
  path : List (List Nat)
  mtime : TsVal
  payload : Option (List Nat)
deriving DecidableEq, Repr

/-- The membership test `next_entry_fn not in {'', '\x01'}` of iso.py line
405, negated: `true` exactly for the self/parent pseudo-entry names (the
empty string and the single control byte).  Raw `bytes` (an undecodable
filename) never equal a `str`, so the test is `false` for them. -/
def pseudoName : PyVal → Bool
  | .str s => s = [] || s = [1]
  | .bytes _ => false

/-- Lines 410-412 of iso.py: seek to `data_location_LE * sector_size`,
read `data_length_LE` bytes, and build the yielded file tuple.  A negative
seek target raises; joining a `Path` with a raw `bytes` filename raises
`TypeError` (after the read, which line order puts first). -/
def yieldFileEntry (f : ByteSource) (ss : Int) (currPath : List (List Nat))
    (r : DirRecord) : ByteSource × Except PyErr Entry :=
  match fileSeekI f ((r.data_location_LE : Int) * ss) with
  | .error e => (f, .error e)
  | .ok f1 =>
    let rd := fileRead f1 r.data_length_LE
    match r.filename with
    | .bytes _ => (rd.2, .error .typeError)
    | .str fn => (rd.2, .ok ⟨currPath ++ [fn], r.datetime, some rd.1⟩)

/-- Result of scanning one directory's data (the inner `while True` loop
of iso.py lines 395-413): the file entries yielded, the directory frames
appended to `to_visit` (in scan order), the file object after the payload
reads, and the exception that aborted the scan, if any. -/
structure ScanOut where
  entries : List Entry
  pushes : List (List (List Nat) × DirRecord)
  file : ByteSource
  err : Option PyErr
deriving DecidableEq, Repr

/-- The inner record scan of `IsoFS.__iter__` (iso.py lines 394-413),
structurally recursive on a gas counter so that the kernel can evaluate
it; `isoScan` below seeds the gas with a bound that the loop can never
exhaust (`ind` grows by at least 1 per step), so the `fuelOut` branch is
unreachable from the wrapper.  `curr_data[ind]` gives the next record
length (0 terminates, out of range raises); each record is parsed from its
slice; a directory record is appended to `to_visit` unless its name is a
pseudo-entry name; a file record is read and yielded immediately. -/
def isoScanGas (gas : Nat) (f : ByteSource) (ss : Int) (currPath : List (List Nat))
    (currData : List Nat) (ind : Nat) : ScanOut :=
  match gas with
  | 0 => ⟨[], [], f, some .fuelOut⟩
  | gas + 1 =>
    if currData.length ≤ ind then ⟨[], [], f, some .indexError⟩
    else
      let next_len := currData.getD ind 0
      if next_len = 0 then ⟨[], [], f, none⟩
      else
        match parse_directory_record ((currData.drop ind).take next_len) with
        | .error e => ⟨[], [], f, some e⟩
        | .ok (next_entry, _w) =>
          if next_entry.file_flags.is_directory then
            if pseudoName next_entry.filename then
              isoScanGas gas f ss currPath currData (ind + next_len)
            else
              match next_entry.filename with
              | .bytes _ => ⟨[], [], f, some .typeError⟩
              | .str fn =>
                let rest := isoScanGas gas f ss currPath currData (ind + next_len)
                ⟨rest.entries, (currPath ++ [fn], next_entry) :: rest.pushes,
                 rest.file, rest.err⟩
          else
            match yieldFileEntry f ss currPath next_entry with
            | (f2, .error e) => ⟨[], [], f2, some e⟩
            | (f2, .ok e) =>
              let rest := isoScanGas gas f2 ss currPath currData (ind + next_len)
              ⟨e :: rest.entries, rest.pushes, rest.file, rest.err⟩

/-- The inner record scan of `IsoFS.__iter__` (iso.py lines 394-413):
`ind` strictly increases per step, so `currData.length - ind + 1` steps of
gas always suffice. -/
def isoScan (f : ByteSource) (ss : Int) (currPath : List (List Nat))
    (currData : List Nat) (ind : Nat) : ScanOut :=
  isoScanGas (currData.length - ind + 1) f ss currPath currData ind

/-- Result of the outer traversal loop: yielded entries, final file
object, and the exception that aborted it (`fuelOut` when the fuel of the
model ran out with frames still pending). -/
structure LoopOut where
  entries : List Entry
  file : ByteSource
  err : Option PyErr
deriving DecidableEq, Repr

/-- The outer `while len(to_visit) != 0` loop of `IsoFS.__iter__` (iso.py
lines 385-413).  `to_visit` is kept top-first (Python appends to the end
and `pop()` takes the end, so a scan's pushes are reversed onto the
front).  Popping a non-root frame yields its directory-marker entry before
its data is read; then the frame's directory data is fetched and scanned.
The source's loop can run forever on cyclic directory references, so the
model takes fuel. -/
def isoLoop (ss : Int) (toVisit : List (List (List Nat) × DirRecord))
    (f : ByteSource) (fuel : Nat) : LoopOut :=
  match toVisit with
  | [] => ⟨[], f, none⟩
  | (p, r) :: rest =>
    match fuel with
    | 0 => ⟨[], f, some .fuelOut⟩
    | fuel + 1 =>
      let dirE : List Entry := if p = [] then [] else [⟨p, r.datetime, none⟩]
      match fileSeekI f ((r.data_location_LE : Int) * ss) with
      | .error e => ⟨dirE, f, some e⟩
      | .ok f1 =>
        let rd := fileRead f1 r.data_length_LE
        let sc := isoScan rd.2 ss p rd.1 0
        match sc.err with
        | some e => ⟨dirE ++ sc.entries, sc.file, some e⟩
        | none =>
          let lo := isoLoop ss (sc.pushes.reverse ++ rest) sc.file fuel
          ⟨dirE ++ sc.entries ++ lo.entries, lo.file, lo.err⟩

/-- `IsoFS.__iter__` (iso.py lines 378-414): remember the cursor, parse
the PVD (loading sector size and descriptor chain on first use), seed
`to_visit` with the root directory record under the empty path, run the
loop, and restore the cursor on completion.  A `None` PVD or a still-unset
sector size would make the source subscript or multiply `None`
(`TypeError`).  Returns the yielded entries together with either the final
object state or the exception that interrupted the generator. -/
def isoIter (s : IsoFS) (fuel : Nat) : List Entry × Except PyErr IsoFS :=
  let start_offset := s.file.pos
  match parse_primary_volume_descriptor s with
  | .error e => ([], .error e)
  | .ok (none, _) => ([], .error .typeError)
  | .ok (some (pvd, _w), s1) =>
    match s1.sector_size with
    | none => ([], .error .typeError)
    | some ss =>
      let lo := isoLoop ss [([], pvd.root_directory_entry)] s1.file fuel
      match lo.err with
      | some e => (lo.entries, .error e)
      | none => (lo.entries, .ok { s1 with file := fileSeek lo.file start_offset })

/-- The names defined at module scope by `niemafs/common.py`: its two
imports' bindings, the two constants, `open_file` and `FileSystem`.
No `clean_string` is among them. -/
def commonModuleNames : List String :=
  ["ABC", "abstractmethod", "gopen", "Path", "stdin", "stdout",
   "DEFAULT_BUFFER_SIZE", "DEFAULT_COMPRESS_LEVEL", "open_file", "FileSystem"]

/-- `from module import a, b, ...`: binding the first listed name that the
module does not define raises `ImportError` naming it. -/
def importFrom (defined names : List String) : Except PyErr Unit :=
  match names.find? (fun n => !(defined.contains n)) with
  | some n => .error (.importError n)
  | none => .ok ()

/-- Line 7 of gcm.py, executed when the module is loaded:
`from niemafs.common import clean_string, FileSystem`. -/
def loadGcmModule : Except PyErr Unit :=
  importFrom commonModuleNames ["clean_string", "FileSystem"]

/-- Constructing a `GcmFS` over an image first requires loading the `gcm`
module; only then would `GcmFS.__init__` run and read the headers.  The
initializer body is never reached, so the model needs no more of it: the
result cannot depend on the image bytes. -/
def gcmConstruct (img : List Nat) : Except PyErr ByteSource :=
  match loadGcmModule with
  | .error e => .error e
  | .ok _ => .ok ⟨img, 0⟩

/-- A GameCube FST entry as parsed by `GcmFS.parse_fst_entry` (gcm.py
lines 45-66): flag byte, 3-byte string-table offset, and the two big-endian
offset/length fields. -/
structure FstEntry where
  flags : Nat
  filename : List Nat
  offset : Nat
  length : Nat
deriving DecidableEq, Repr

/-- `GcmFS.parse_fst_entry` (gcm.py lines 45-66): exactly 12 bytes or
`ValueError`. -/
def parse_fst_entry (data : List Nat) : Except PyErr FstEntry :=
  if data.length ≠ 12 then .error .valueError
  else .ok ⟨data.getD 0 0, pySlice data 1 4,
            be32 (pySlice data 4 8), be32 (pySlice data 8 12)⟩

/-- Python `bytes.split(b'\x00')`. -/
def splitOnZero (l : List Nat) : List (List Nat) := l.splitOn 0

/-- `GcmFS.__iter__` (gcm.py lines 203-209) as a function of the cached
`fst.bin` bytes (`self.get_fst_bin()` returns the bytes loaded at
construction): parse the root entry from the first 12 bytes, take the
entry count from its `length` field, decode the string table
(`fst[0x0C * num_entries:][:-1].split(b'\x00')`), then the method body
ends in `raise NotImplementedError("TODO")` — it can never yield. -/
def gcm_iter (fst : List Nat) : Except PyErr (List Entry) :=
  match parse_fst_entry (fst.take 12) with
  | .error e => .error e
  | .ok root =>
    let num_entries := root.length
    let stBytes := (fst.drop (12 * num_entries)).dropLast
    if (splitOnZero stBytes).all (fun p => (utf8Decode p).isSome) then
      .error .notImplementedError
    else .error .unicodeDecodeError

/-- The synthetic FST of the specification's GCM end-to-end property: a
root entry `{flag: 1, length: 3}` followed by two file entries and the
string table `"a\0b\0"`. -/
def synthFst : List Nat :=
  [1, 0, 0, 0, 0, 0, 0, 0, 0, 0, 0, 3,
   0, 0, 0, 0, 0, 0, 0, 0, 0, 0, 0, 0,
   0, 0, 0, 2, 0, 0, 0, 0, 0, 0, 0, 0,
   97, 0, 98, 0]

/-- A 34-byte ISO file record placed at byte 0 of the synthetic source
(inside the system area): a file named "A" of 5 bytes located at LBA 0. -/
def synthFileRec : List Nat :=
  [34, 0, 0, 0, 0, 0, 0, 0, 0, 0, 5, 0, 0, 0, 0, 0, 0, 5,
   90, 1, 1, 0, 0, 0, 8, 0, 0, 0, 1, 0, 0, 1, 1, 65]

/-- The embedded root directory record of the synthetic PVD: a directory
whose 35 bytes of data live at LBA 0. -/
def synthRootRec : List Nat :=
  [34, 0, 0, 0, 0, 0, 0, 0, 0, 0, 35, 0, 0, 0, 0, 0, 0, 35,
   90, 1, 1, 0, 0, 0, 8, 2, 0, 0, 1, 0, 0, 1, 1, 0]

/-- A synthetic 883-byte Primary Volume Descriptor: type code 1, the magic
word, version 1, and the root record at offset 156. -/
def synthPvd : List Nat :=
  [1] ++ magicWord ++ [1, 0] ++ List.replicate 148 0 ++ synthRootRec ++ List.replicate 693 0

/-- An `IsoFS` whose descriptor caches are already warm (its accessors
were exercised earlier, as `get_volume_descriptors` does on first use) and
whose byte source holds the root directory data: one file record and a
terminating zero length byte.  The cursor is parked at 7. -/
def synthIso : IsoFS :=
  ⟨⟨synthFileRec ++ [0], 7⟩, some 2048, none, [(1, synthPvd), (255, [255])]⟩

/-- The single entry the synthetic decoder yields: file "A" (code point
65) with its 5-byte payload. -/
def synthEntry : Entry :=
  ⟨[[65]], .parsed [90, 1, 1, 0, 0, 0, 8], some [34, 0, 0, 0, 0]⟩

/-- The spec's well-formedness invariant for an ISO 9660 image (spec 3):
the magic word "CD001" appears at byte offset `16 * SectorSize + 1` within
the first 50,000 bytes, for some positive sector size. -/
def wellFormedIso (data : List Nat) : Prop :=
  ∃ s : Nat, 1 ≤ s ∧ magicAt data (16 * s + 1) ∧ 16 * s + 6 ≤ MAGIC_WORD_SEARCH_SIZE

/-- A well-formed image (the magic word sits at offset 17 = 16*1+1) that
also contains a spurious copy of the magic word earlier, at offset 5. -/
def cexMisalignedImage : List Nat :=
  [9, 9, 9, 9, 9] ++ magicWord ++ [9, 9, 9, 9, 9, 9, 9] ++ magicWord

/-- A fresh `IsoFS` over the misaligned image. -/
def cexMisalignedIso : IsoFS := ⟨⟨cexMisalignedImage, 0⟩, none, none, []⟩

/-- A fresh `IsoFS` over a clean image whose only magic word is at 16*1+1. -/
def goodSectorIso : IsoFS := ⟨⟨List.replicate 17 0 ++ magicWord, 0⟩, none, none, []⟩

/-- A fresh `IsoFS` whose image does not contain the magic word at all. -/
def noMagicIso : IsoFS := ⟨⟨[1, 2, 3], 0⟩, none, none, []⟩

/-- A fresh `IsoFS` over an image whose magic word gives sector size 1 but
whose descriptor chain (from byte 16 on) never shows a type-255 byte. -/
def noTermIso : IsoFS :=
  ⟨⟨List.replicate 17 0 ++ magicWord ++ [55], 3⟩, none, none, []⟩

/-- A 34-byte directory record whose little- and big-endian copies
disagree (location 1 vs 2, length 5 vs 6) and whose filename and date/time
decode cleanly. -/
def cexMismatchRec : List Nat :=
  [34, 0, 1, 0, 0, 0, 0, 0, 0, 2, 5, 0, 0, 0, 0, 0, 0, 6,
   90, 1, 1, 0, 0, 0, 8, 0, 0, 0, 1, 0, 0, 1, 1, 65]

/-- A 34-byte directory record whose filename byte 0xFF is not valid
UTF-8, so its parse warns about the filename field. -/
def badFnRec : List Nat :=
  [34, 0, 1, 0, 0, 0, 0, 0, 0, 2, 5, 0, 0, 0, 0, 0, 0, 6,
   90, 1, 1, 0, 0, 0, 8, 0, 0, 0, 1, 0, 0, 1, 1, 255]

/-- The directory record encoded by `synthRootRec`, as parsed by
`parse_directory_record`. -/
def synthRootParsed : DirRecord :=
  ⟨34, 0, 0, 0, 35, 35, .parsed [90, 1, 1, 0, 0, 0, 8],
   ⟨false, true, false, false, false, false, false, false⟩, 0, 0, 1, 1, 1, .str []⟩

/-- The directory record encoded by `synthFileRec`, as parsed by
`parse_directory_record`. -/
def synthFileParsed : DirRecord :=
  ⟨34, 0, 0, 0, 5, 5, .parsed [90, 1, 1, 0, 0, 0, 8],
   ⟨false, false, false, false, false, false, false, false⟩, 0, 0, 1, 1, 1, .str [65]⟩

theorem fileRead_data (f : ByteSource) (n : Nat) : (fileRead f n).2.data = f.data := rfl

theorem fileReadI_data (f : ByteSource) (n : Int) : (fileReadI f n).2.data = f.data := rfl

theorem fileRead_fst (f : ByteSource) (n : Nat) :
    (fileRead f n).1 = (f.data.drop f.pos).take n := rfl

theorem fileRead_length (f : ByteSource) (n : Nat) :
    (fileRead f n).1.length = min n (f.data.length - f.pos) := by
  simp [fileRead]

/-- C3: the claim states that `read_file(offset, length, restore)` always
returns exactly `length` bytes and fails with `TruncatedReadError` when
fewer are available.  The source has no such error: `file.read` silently
returns whatever is available.  Concretely, asking a 2-byte source for 5
bytes returns the 2 bytes with no exception (the return type of the
embedding is not even fallible, mirroring the source's lack of any raise
path). -/
theorem read_file_short_read_cex :
    (read_file ⟨[7, 8], 0⟩ 0 5 false).1 = [7, 8] ∧
    (read_file ⟨[7, 8], 0⟩ 0 5 false).1.length ≠ 5 := by
  exact ⟨rfl, by decide⟩

/-- C3 (amended): `read_file(offset, length, restore)` returns exactly
`min(length, available_at_offset)` bytes — exactly `length` whenever the
range fits inside the source, and silently fewer otherwise; no error is
ever raised. -/
theorem read_file_returns_min_length (f : ByteSource) (offset length : Nat) (r : Bool) :
    (read_file f offset length r).1.length = min length (f.data.length - offset) := by
  cases r <;> simp [read_file, fileRead, fileSeek]

/-- C2: `gcm.py` line 7 runs `from niemafs.common import clean_string,
FileSystem` when the module loads, but `niemafs/common.py` defines no
`clean_string`, so the import raises before `GcmFS.__init__` can run: the
construction fails identically for every image, without reading a byte. -/
theorem gcm_module_import_fails (img : List Nat) :
    gcmConstruct img = .error (.importError "clean_string") := rfl

/-- C1: the claim states that `GcmFS.__iter__` reconstructs the FST tree
and, on the synthetic FST with root `{flag: 1, length: 3}` and two file
children, yields exactly the 2 file entries.  The method body (gcm.py
lines 203-209) ends in `raise NotImplementedError("TODO")` after loading
the root entry and string table: it yields nothing on any input, and on
the synthetic FST it raises `NotImplementedError`. -/
theorem gcm_iter_never_yields :
    (∀ fst, ∃ e, gcm_iter fst = .error e) ∧
    gcm_iter synthFst = .error .notImplementedError := by
  constructor
  · intro fst
    unfold gcm_iter
    rcases h : parse_fst_entry (fst.take 12) with e | root
    · exact ⟨e, rfl⟩
    · by_cases hd : (splitOnZero ((fst.drop (12 * root.length)).dropLast)).all
        (fun p => (utf8Decode p).isSome)
      · exact ⟨.notImplementedError, by simp [hd]⟩
      · exact ⟨.unicodeDecodeError, by simp [hd]⟩
  · rfl

theorem findSub_some_prefix (hay needle : List Nat) (i j : Nat)
    (h : findSub hay needle i = some j) :
    needle.isPrefixOf (hay.drop (j - i)) = true ∧ i ≤ j := by
  induction hay generalizing i with
  | nil =>
    by_cases hn : needle = []
    · simp [findSub, hn] at h
      subst h
      simp [hn]
    · simp [findSub, hn] at h
  | cons x t ih =>
    by_cases hp : needle.isPrefixOf (x :: t)
    · simp [findSub, hp] at h
      subst h
      simpa using hp
    · simp [findSub, hp] at h
      obtain ⟨hpre, hle⟩ := ih (i + 1) h
      refine ⟨?_, by omega⟩
      have hji : j - i = (j - (i + 1)) + 1 := by omega
      rw [hji]
      simpa using hpre

theorem isPrefixOf_take (needle l : List Nat) (h : needle.isPrefixOf l = true) :
    l.take needle.length = needle := by
  obtain ⟨t, ht⟩ := List.isPrefixOf_iff_prefix.mp h
  subst ht
  exact List.take_left needle t

/-- C4: the claim states that for any well-formed ISO 9660 image the
discovered sector size `s` satisfies "byte `16*s+1` begins CD001".  The
source takes the FIRST occurrence of the magic word in the image, so a
well-formed image that also contains a spurious earlier "CD001" (here at
offset 5, inside the system area, while the genuine one sits at offset
17 = 16*1+1) gets sector size `(5-1)//16 = 0`, and byte `16*0+1` does not
begin the magic word. -/
theorem get_sector_size_misaligned_cex :
    wellFormedIso cexMisalignedImage ∧
    (get_sector_size cexMisalignedIso).toOption.map Prod.fst = some 0 ∧
    ¬ magicAt cexMisalignedImage (16 * 0 + 1) :=
  ⟨⟨1, by decide, by decide, by decide⟩, by rfl, by decide⟩

/-- C4 (amended): sector-size discovery scans the first 50,000 bytes for
"CD001" and returns `(magic_offset - 1) // 16` for the FIRST occurrence;
byte `16*s+1` begins "CD001" provided that first occurrence itself lies at
an offset of the form `16*k+1` (in particular when no spurious magic word
precedes the genuine one); if the magic word is absent from the first
50,000 bytes, discovery fails with an error instead of returning a
value. -/
theorem get_sector_size_aligned_first_magic :
    (∀ (s : IsoFS) (k : Nat), s.sector_size = none →
      findSub (s.file.data.take MAGIC_WORD_SEARCH_SIZE) magicWord 0 = some (16 * k + 1) →
      (get_sector_size s).toOption.map Prod.fst = some ((k : Nat) : Int) ∧
      magicAt s.file.data (16 * k + 1)) ∧
    (∀ s : IsoFS, s.sector_size = none →
      findSub (s.file.data.take MAGIC_WORD_SEARCH_SIZE) magicWord 0 = none →
      get_sector_size s = .error .valueError) := by
  constructor
  · intro s k hcache hfind
    have hchunk : (fileRead (fileSeek s.file 0) MAGIC_WORD_SEARCH_SIZE).1 =
        s.file.data.take MAGIC_WORD_SEARCH_SIZE := by
      simp [fileRead, fileSeek]
    constructor
    · simp only [get_sector_size, hcache, hchunk, hfind]
      have : ((16 * k + 1 : Nat) : Int) - 1 = 16 * (k : Int) := by push_cast; ring
      simp only [this, Int.mul_fdiv_cancel_left (k : Int) (by norm_num : (16 : Int) ≠ 0)]
      rfl
    · obtain ⟨hpre, _⟩ := findSub_some_prefix _ _ _ _ hfind
      simp only [Nat.sub_zero] at hpre
      have htake := isPrefixOf_take _ _ hpre
      have hlen : magicWord.length ≤ ((s.file.data.take MAGIC_WORD_SEARCH_SIZE).drop (16 * k + 1)).length :=
        List.IsPrefix.length_le (List.isPrefixOf_iff_prefix.mp hpre)
      have hfit : 16 * k + 1 + 5 ≤ MAGIC_WORD_SEARCH_SIZE := by
        have h1 : ((s.file.data.take MAGIC_WORD_SEARCH_SIZE).drop (16 * k + 1)).length =
            (s.file.data.take MAGIC_WORD_SEARCH_SIZE).length - (16 * k + 1) := by
          simp
        have h2 : (s.file.data.take MAGIC_WORD_SEARCH_SIZE).length ≤ MAGIC_WORD_SEARCH_SIZE := by
          simp
        have h3 : magicWord.length = 5 := rfl
        omega
      unfold magicAt
      have hdt : (s.file.data.take MAGIC_WORD_SEARCH_SIZE).drop (16 * k + 1) =
          (s.file.data.drop (16 * k + 1)).take (MAGIC_WORD_SEARCH_SIZE - (16 * k + 1)) := by
        rw [List.drop_take]
      rw [hdt] at htake
      rw [List.take_take] at htake
      have hmin : min magicWord.length (MAGIC_WORD_SEARCH_SIZE - (16 * k + 1)) = 5 := by
        have : magicWord.length = 5 := rfl
        omega
      rw [hmin] at htake
      exact htake
  · intro s hcache hfind
    have hchunk : (fileRead (fileSeek s.file 0) MAGIC_WORD_SEARCH_SIZE).1 =
        s.file.data.take MAGIC_WORD_SEARCH_SIZE := by
      simp [fileRead, fileSeek]
    simp only [get_sector_size, hcache, hchunk, hfind]

/-- C4 witness: applying the amended theorem to a clean concrete image
(magic only at offset 17), and its absence part to a magic-free image. -/
theorem get_sector_size_aligned_witness :
    magicAt goodSectorIso.file.data 17 ∧
    get_sector_size noMagicIso = .error .valueError :=
  ⟨(get_sector_size_aligned_first_magic.1 goodSectorIso 1 rfl (by rfl)).2,
   get_sector_size_aligned_first_magic.2 noMagicIso rfl (by rfl)⟩

theorem vdChain255Gas_congr :
    ∀ (g1 g2 : Nat) (f : ByteSource) (n : Int),
      f.data.length - f.pos < g1 → f.data.length - f.pos < g2 →
      vdChain255Gas g1 f n = vdChain255Gas g2 f n := by
  intro g1
  induction g1 with
  | zero => intro g2 f n h1 _; omega
  | succ m1 ih =>
    intro g2 f n h1 h2
    match g2, h2 with
    | m2 + 1, h2 =>
      simp only [vdChain255Gas]
      cases hh : (fileReadI f n).1 with
      | nil => rfl
      | cons b rest =>
        by_cases hb : b = 255
        · simp [hb]
        · simp only [hb, if_false]
          have hm := fileReadI_measure f n (by rw [hh]; exact List.cons_ne_nil _ _)
          exact ih m2 (fileReadI f n).2 n (by omega) (by omega)

theorem vdChain255_unfold (f : ByteSource) (n : Int) :
    vdChain255 f n =
      match (fileReadI f n).1 with
      | [] => false
      | b :: _ => if b = 255 then true else vdChain255 (fileReadI f n).2 n := by
  unfold vdChain255
  conv_lhs => rw [vdChain255Gas]
  cases hh : (fileReadI f n).1 with
  | nil => rfl
  | cons b rest =>
    by_cases hb : b = 255
    · simp [hb]
    · simp only [hb, if_false]
      have hm := fileReadI_measure f n (by rw [hh]; exact List.cons_ne_nil _ _)
      exact vdChain255Gas_congr _ _ _ n (by omega) (by omega)

theorem vdChain_false_loop_raises :
    ∀ (m : Nat) (f : ByteSource) (n : Int) (acc : List (Nat × List Nat)),
      f.data.length - f.pos = m → vdChain255 f n = false →
      vdLoop f n acc = .error .indexError := by
  intro m
  induction m using Nat.strong_induction_on with
  | _ m ih =>
    intro f n acc hm hchain
    rw [vdChain255_unfold] at hchain
    rw [vdLoop.eq_def]
    split
    · rfl
    · next b rest hh =>
      rw [hh] at hchain
      by_cases hb : b = 255
      · rw [hb] at hchain; simp at hchain
      · simp only [hb, if_false] at hchain ⊢
        have hmlt := fileReadI_measure f n (by rw [hh]; exact List.cons_ne_nil _ _)
        exact ih ((fileReadI f n).2.data.length - (fileReadI f n).2.pos) (by omega)
          (fileReadI f n).2 n _ rfl hchain

theorem get_sector_size_state (s : IsoFS) (ss : Int) (s1 : IsoFS)
    (h : get_sector_size s = .ok (ss, s1)) :
    s1.volume_descriptors = s.volume_descriptors ∧ s1.file.data = s.file.data ∧
    s1.file.pos = s.file.pos ∧ s1.sector_size = some ss ∧
    s1.system_area = s.system_area := by
  unfold get_sector_size at h
  split at h
  · next v hss =>
    simp only [Except.ok.injEq, Prod.mk.injEq] at h
    obtain ⟨hv, hs⟩ := h
    subst hs
    exact ⟨rfl, rfl, rfl, by rw [hss, hv], rfl⟩
  · next hss =>
    dsimp only at h
    split at h
    · exact absurd h (by simp)
    · next off hfind =>
      simp only [Except.ok.injEq, Prod.mk.injEq] at h
      obtain ⟨hv, hs⟩ := h
      subst hs
      exact ⟨rfl, rfl, rfl, by rw [hv], rfl⟩

/-- C5: volume-descriptor loading reads one sector at a time from sector
16, keying each by its first byte, stopping at type 255.  For every image
whose chain never shows a type-255 first byte within bounds, the loop
terminates by raising (`IndexError`, from subscripting the empty read past
the end of the image — the exception the spec's taxonomy calls
`FormatError("missing terminator")`): it neither loops forever (the
embedding is a total function, proved terminating on the remaining bytes)
nor returns normally. -/
theorem vd_missing_terminator_raises :
    (∀ (f : ByteSource) (n : Int) (acc : List (Nat × List Nat)),
      vdChain255 f n = false → vdLoop f n acc = .error .indexError) ∧
    (∀ (s : IsoFS) (ss : Int) (s1 : IsoFS) (f2 : ByteSource),
      s.volume_descriptors = [] →
      get_sector_size s = .ok (ss, s1) →
      fileSeekI s1.file (16 * ss) = .ok f2 →
      vdChain255 f2 ss = false →
      get_volume_descriptors s = .error .indexError) := by
  constructor
  · intro f n acc h
    exact vdChain_false_loop_raises _ f n acc rfl h
  · intro s ss s1 f2 hvd hss hseek hchain
    have hs1vd : s1.volume_descriptors = [] :=
      (get_sector_size_state s ss s1 hss).1.trans hvd
    unfold get_volume_descriptors
    rw [hvd]
    simp only [List.length_nil, if_true, reduceIte]
    rw [hss]
    dsimp only
    rw [hseek]
    dsimp only
    rw [hs1vd, vdChain_false_loop_raises (f2.data.length - f2.pos) f2 ss [] rfl hchain]

/-- C5 witness: a concrete image (sector size 1, bytes after offset 16
never 255) on which descriptor loading raises. -/
theorem vd_missing_terminator_witness :
    get_volume_descriptors noTermIso = .error .indexError :=
  vd_missing_terminator_raises.2 noTermIso 1
    ⟨⟨List.replicate 17 0 ++ magicWord ++ [55], 3⟩, some 1, none, []⟩
    ⟨List.replicate 17 0 ++ magicWord ++ [55], 16⟩
    rfl (by rfl) (by rfl) (by rfl)

/-- C6: the claim states that a little/big-endian mismatch in a directory
record's location or length fields is "reported to the caller as a
non-fatal diagnostic warning".  Parsing does continue and addressing does
use the little-endian copy, but nothing is reported: a record with
location copies 1 vs 2 and length copies 5 vs 6 parses successfully with
an EMPTY warning list — the source never compares the two copies. -/
theorem dir_record_mismatch_silent_cex :
    (parse_directory_record cexMismatchRec).toOption.map
        (fun rw => (rw.2, rw.1.data_location_LE, rw.1.data_location_BE,
                    rw.1.data_length_LE, rw.1.data_length_BE)) =
      some ([], 1, 2, 5, 6) := by
  rfl

/-- C6 (amended): for every directory record whose endian copies disagree,
parsing and traversal continue without aborting and addressing uses only
the little-endian copy, but the mismatch is silently ignored: no
diagnostic of any kind is emitted for it.  Concretely: (1) every record of
at least 33 bytes parses successfully; (2) any warning the parse can emit
concerns the filename string or the date/time field, never the endian
copies; (3) the file-yield step is unchanged under arbitrary rewrites of
the big-endian copies; (4) so is the traversal loop step. -/
theorem dir_record_mismatch_tolerated :
    (∀ d : List Nat, 33 ≤ d.length → (parse_directory_record d).isOk = true) ∧
    (∀ (d : List Nat) (x : Warning),
      x ∈ (((parse_directory_record d).toOption.map Prod.snd).getD []) →
      x = .stringField "filename" ∨ x = .datetimeField "datetime") ∧
    (∀ (f : ByteSource) (ss : Int) (p : List (List Nat)) (r : DirRecord) (x y : Nat),
      yieldFileEntry f ss p { r with data_location_BE := x, data_length_BE := y } =
        yieldFileEntry f ss p r) ∧
    (∀ (ss : Int) (p : List (List Nat)) (r : DirRecord) (x y : Nat)
        (rest : List (List (List Nat) × DirRecord)) (f : ByteSource) (fuel : Nat),
      isoLoop ss ((p, { r with data_location_BE := x, data_length_BE := y }) :: rest) f fuel =
        isoLoop ss ((p, r) :: rest) f fuel) := by
  refine ⟨?_, ?_, ?_, ?_⟩
  · intro d hd
    unfold parse_directory_record
    rw [if_neg (by omega), if_neg (by omega), if_neg (by omega),
      if_neg (by omega), if_neg (by omega)]
    rfl
  · intro d x hx
    unfold parse_directory_record at hx
    split at hx
    · simp [Except.toOption] at hx
    · split at hx
      · simp [Except.toOption] at hx
      · split at hx
        · simp [Except.toOption] at hx
        · split at hx
          · simp [Except.toOption] at hx
          · split at hx
            · simp [Except.toOption] at hx
            · simp only [Except.toOption, Option.map_some', Option.getD_some] at hx
              rw [List.mem_append] at hx
              rcases hx with hx | hx
              · rcases hc : clean_string (pySlice d 33 (33 + d.getD 32 0)) with _ | s
                · rw [hc] at hx
                  simp at hx
                  exact Or.inl hx
                · rw [hc] at hx
                  simp at hx
              · by_cases hdt : dirDatetimeOk (pySlice d 18 25) = true
                · rw [if_pos hdt] at hx
                  simp at hx
                · rw [if_neg hdt] at hx
                  simp at hx
                  exact Or.inr hx
  · intro f ss p r x y
    rfl
  · intro ss p r x y rest f fuel
    cases fuel <;> rfl

/-- C6 witness: the totality part on a concrete 34-byte record, the
warning-kind part on a record with an undecodable filename, and the
big-endian-independence of the file-yield step at concrete inputs. -/
theorem dir_record_mismatch_tolerated_witness :
    (parse_directory_record synthFileRec).isOk = true ∧
    ((Warning.stringField "filename" = .stringField "filename") ∨
      (Warning.stringField "filename" = .datetimeField "datetime")) ∧
    yieldFileEntry ⟨[1, 2, 3], 0⟩ 1 []
        { (default : DirRecord) with data_location_BE := 9, data_length_BE := 9 } =
      yieldFileEntry ⟨[1, 2, 3], 0⟩ 1 [] (default : DirRecord) :=
  ⟨dir_record_mismatch_tolerated.1 synthFileRec (by decide),
   dir_record_mismatch_tolerated.2.1 badFnRec (.stringField "filename") (by decide),
   dir_record_mismatch_tolerated.2.2.1 ⟨[1, 2, 3], 0⟩ 1 [] default 9 9⟩

theorem yieldFileEntry_ok_shape (f : ByteSource) (ss : Int) (p : List (List Nat))
    (r : DirRecord) (f2 : ByteSource) (e : Entry)
    (h : yieldFileEntry f ss p r = (f2, .ok e)) :
    ∃ c, e.path = p ++ [c] ∧ e.payload.isSome = true := by
  unfold yieldFileEntry at h
  split at h
  · simp at h
  · next f1 hseek =>
    split at h
    · simp at h
    · next fn hfn =>
      simp only [Prod.mk.injEq, Except.ok.injEq] at h
      obtain ⟨_, he⟩ := h
      exact ⟨fn, by rw [← he], by rw [← he]; rfl⟩

theorem isoScanGas_shapes :
    ∀ (gas : Nat) (f : ByteSource) (ss : Int) (p : List (List Nat))
      (cd : List Nat) (ind : Nat),
      (∀ e ∈ (isoScanGas gas f ss p cd ind).entries,
        ∃ c, e.path = p ++ [c] ∧ e.payload.isSome = true) ∧
      (∀ q ∈ (isoScanGas gas f ss p cd ind).pushes, ∃ c, q.1 = p ++ [c]) := by
  intro gas
  induction gas with
  | zero =>
    intro f ss p cd ind
    exact ⟨fun e he => absurd he (by simp [isoScanGas]),
           fun q hq => absurd hq (by simp [isoScanGas])⟩
  | succ g ih =>
    intro f ss p cd ind
    rw [isoScanGas]
    by_cases h1 : cd.length ≤ ind
    · rw [if_pos h1]
      exact ⟨fun e he => absurd he (by simp), fun q hq => absurd hq (by simp)⟩
    · rw [if_neg h1]
      dsimp only
      by_cases h2 : cd.getD ind 0 = 0
      · rw [if_pos h2]
        exact ⟨fun e he => absurd he (by simp), fun q hq => absurd hq (by simp)⟩
      · rw [if_neg h2]
        rcases hp : parse_directory_record (List.take (cd.getD ind 0) (List.drop ind cd))
          with e | ⟨r, w⟩
        · exact ⟨fun e2 he2 => absurd he2 (by simp), fun q hq => absurd hq (by simp)⟩
        · dsimp only
          by_cases hdir : r.file_flags.is_directory = true
          · rw [if_pos hdir]
            by_cases hps : pseudoName r.filename = true
            · rw [if_pos hps]
              exact ih f ss p cd _
            · rw [if_neg hps]
              rcases hfn : r.filename with s | b
              · dsimp only
                refine ⟨fun e2 he2 => (ih f ss p cd _).1 e2 he2, fun q hq => ?_⟩
                rcases List.mem_cons.mp hq with hq | hq
                · exact ⟨s, by rw [hq]⟩
                · exact (ih f ss p cd _).2 q hq
              · dsimp only
                exact ⟨fun e2 he2 => absurd he2 (by simp),
                       fun q hq => absurd hq (by simp)⟩
          · rw [if_neg hdir]
            rcases hy : yieldFileEntry f ss p r with ⟨f2, e2 | e2⟩
            · exact ⟨fun e3 he3 => absurd he3 (by simp),
                     fun q hq => absurd hq (by simp)⟩
            · dsimp only
              refine ⟨fun e3 he3 => ?_, fun q hq => (ih f2 ss p cd _).2 q hq⟩
              rcases List.mem_cons.mp he3 with he3 | he3
              · subst he3
                exact yieldFileEntry_ok_shape f ss p r f2 _ hy
              · exact (ih f2 ss p cd _).1 e3 he3

theorem isoScan_shapes (f : ByteSource) (ss : Int) (p : List (List Nat))
    (cd : List Nat) (ind : Nat) :
    (∀ e ∈ (isoScan f ss p cd ind).entries,
      ∃ c, e.path = p ++ [c] ∧ e.payload.isSome = true) ∧
    (∀ q ∈ (isoScan f ss p cd ind).pushes, ∃ c, q.1 = p ++ [c]) :=
  isoScanGas_shapes _ f ss p cd ind

theorem isoScanGas_congr :
    ∀ (g1 g2 : Nat) (f : ByteSource) (ss : Int) (p : List (List Nat))
      (cd : List Nat) (ind : Nat),
      cd.length - ind < g1 → cd.length - ind < g2 →
      isoScanGas g1 f ss p cd ind = isoScanGas g2 f ss p cd ind := by
  intro g1
  induction g1 with
  | zero => intro g2 f ss p cd ind h1 _; omega
  | succ m1 ih =>
    intro g2 f ss p cd ind h1 h2
    match g2, h2 with
    | m2 + 1, h2 =>
      rw [isoScanGas, isoScanGas]
      by_cases hl : cd.length ≤ ind
      · rw [if_pos hl, if_pos hl]
      · rw [if_neg hl, if_neg hl]
        dsimp only
        by_cases hz : cd.getD ind 0 = 0
        · rw [if_pos hz, if_pos hz]
        · rw [if_neg hz, if_neg hz]
          rcases hp : parse_directory_record (List.take (cd.getD ind 0) (List.drop ind cd))
            with e | ⟨r, w⟩
          · rfl
          · dsimp only
            have hrec : ∀ f3 : ByteSource,
                isoScanGas m1 f3 ss p cd (ind + cd.getD ind 0) =
                  isoScanGas m2 f3 ss p cd (ind + cd.getD ind 0) := by
              intro f3
              exact ih m2 f3 ss p cd _ (by omega) (by omega)
            by_cases hdir : r.file_flags.is_directory = true
            · rw [if_pos hdir, if_pos hdir]
              by_cases hps : pseudoName r.filename = true
              · rw [if_pos hps, if_pos hps]
                exact hrec f
              · rw [if_neg hps, if_neg hps]
                rcases r.filename with s | b
                · dsimp only
                  rw [hrec f]
                · rfl
            · rw [if_neg hdir, if_neg hdir]
              rcases yieldFileEntry f ss p r with ⟨f2, e2 | e2⟩
              · rfl
              · dsimp only
                rw [hrec f2]

theorem isoScan_pseudo_skip (f : ByteSource) (ss : Int) (p : List (List Nat))
    (cd : List Nat) (ind nl : Nat) (r : DirRecord) (w : List Warning)
    (hlt : ind < cd.length) (hnl : cd.getD ind 0 = nl) (hz : nl ≠ 0)
    (hp : parse_directory_record ((cd.drop ind).take nl) = .ok (r, w))
    (hdir : r.file_flags.is_directory = true) (hps : pseudoName r.filename = true) :
    isoScan f ss p cd ind = isoScan f ss p cd (ind + nl) := by
  subst hnl
  unfold isoScan
  conv_lhs => rw [isoScanGas]
  rw [if_neg (by omega)]
  dsimp only
  rw [if_neg hz, hp]
  dsimp only
  rw [if_pos hdir, if_pos hps]
  exact isoScanGas_congr _ _ f ss p cd (ind + cd.getD ind 0) (by omega) (by omega)

theorem isoLoop_no_root_entry :
    ∀ (fuel : Nat) (ss : Int) (tv : List (List (List Nat) × DirRecord))
      (f : ByteSource), ∀ e ∈ (isoLoop ss tv f fuel).entries, e.path ≠ [] := by
  intro fuel
  induction fuel with
  | zero =>
    intro ss tv f e he
    cases tv with
    | nil => simp [isoLoop] at he
    | cons hd tl =>
      obtain ⟨p, r⟩ := hd
      simp [isoLoop] at he
  | succ n ih =>
    intro ss tv f e he
    cases tv with
    | nil => simp [isoLoop] at he
    | cons hd tl =>
      obtain ⟨p, r⟩ := hd
      rw [isoLoop] at he
      dsimp only at he
      split at he
      · next e1 hseek =>
        by_cases hp : p = []
        · simp [hp] at he
        · simp only [if_neg hp, List.mem_singleton] at he
          subst he
          exact hp
      · next f1 hseek =>
        split at he
        · next e1 herr =>
          rw [List.mem_append] at he
          rcases he with he | he
          · by_cases hp : p = []
            · simp [hp] at he
            · simp only [if_neg hp, List.mem_singleton] at he
              subst he
              exact hp
          · obtain ⟨c, hc, _⟩ := (isoScan_shapes _ ss p _ 0).1 e he
            rw [hc]
            simp
        · next hnone =>
          rw [List.mem_append, List.mem_append] at he
          rcases he with (he | he) | he
          · by_cases hp : p = []
            · simp [hp] at he
            · simp only [if_neg hp, List.mem_singleton] at he
              subst he
              exact hp
          · obtain ⟨c, hc, _⟩ := (isoScan_shapes _ ss p _ 0).1 e he
            rw [hc]
            simp
          · exact ih ss _ _ e he

/-- C7: during ISO iteration, every popped directory with a non-empty path
is yielded exactly once, as an entry with absent payload, before any of
its children is processed; the root (empty path) is never yielded; and the
self/parent pseudo-records (directory-flagged, with an empty or
single-control-byte cleaned name) yield nothing and are not queued.
Formally: (1) no entry produced by the traversal loop ever carries the
empty path; (2) the record scan of a directory's data only emits entries
with a present payload (directory-marker entries arise only at the single
pop of their frame); (3) scanning a directory-flagged pseudo-record is
exactly the scan that skips it — nothing is yielded or pushed for it;
(4) popping a frame with a non-empty path puts its absent-payload marker
entry first, before anything produced by its data scan or descendants. -/
theorem iso_iter_dir_yield_discipline :
    (∀ (fuel : Nat) (ss : Int) (tv : List (List (List Nat) × DirRecord))
        (f : ByteSource), ∀ e ∈ (isoLoop ss tv f fuel).entries, e.path ≠ []) ∧
    (∀ (f : ByteSource) (ss : Int) (p : List (List Nat)) (cd : List Nat) (ind : Nat),
      ∀ e ∈ (isoScan f ss p cd ind).entries, e.payload.isSome = true) ∧
    (∀ (f : ByteSource) (ss : Int) (p : List (List Nat)) (cd : List Nat)
        (ind nl : Nat) (r : DirRecord) (w : List Warning),
      ind < cd.length → cd.getD ind 0 = nl → nl ≠ 0 →
      parse_directory_record ((cd.drop ind).take nl) = .ok (r, w) →
      r.file_flags.is_directory = true → pseudoName r.filename = true →
      isoScan f ss p cd ind = isoScan f ss p cd (ind + nl)) ∧
    (∀ (ss : Int) (p : List (List Nat)) (r : DirRecord)
        (rest : List (List (List Nat) × DirRecord)) (f : ByteSource) (fuel : Nat),
      p ≠ [] →
      (isoLoop ss ((p, r) :: rest) f (fuel + 1)).entries.head? =
        some ⟨p, r.datetime, none⟩) := by
  refine ⟨isoLoop_no_root_entry, ?_, ?_, ?_⟩
  · intro f ss p cd ind e he
    obtain ⟨_, _, hs⟩ := (isoScan_shapes f ss p cd ind).1 e he
    exact hs
  · intro f ss p cd ind nl r w hlt hnl hz hp hdir hps
    exact isoScan_pseudo_skip f ss p cd ind nl r w hlt hnl hz hp hdir hps
  · intro ss p r rest f fuel hp
    rw [isoLoop]
    dsimp only
    split
    · simp [if_neg hp]
    · split
      · simp [if_neg hp]
      · simp [if_neg hp]

/-- C7 witness: the four parts applied at concrete inputs — the synthetic
file entry has a non-empty path and a present payload, scanning the
synthetic pseudo-record ('.'-style name, directory flag) from index 0
equals skipping straight to index 34, and popping a non-root frame yields
its directory marker first. -/
theorem iso_iter_dir_yield_discipline_witness :
    synthEntry.path ≠ [] ∧
    synthEntry.payload.isSome = true ∧
    isoScan ⟨synthFileRec ++ [0], 35⟩ 2048 [] (synthRootRec ++ [0]) 0 =
      isoScan ⟨synthFileRec ++ [0], 35⟩ 2048 [] (synthRootRec ++ [0]) 34 ∧
    (isoLoop 2048 [([[65]], synthRootParsed)] ⟨synthFileRec ++ [0], 0⟩
        (1 + 1)).entries.head? = some ⟨[[65]], synthRootParsed.datetime, none⟩ := by
  refine ⟨?_, ?_, ?_, ?_⟩
  · exact iso_iter_dir_yield_discipline.1 2 2048 [([], synthRootParsed)]
      ⟨synthFileRec ++ [0], 7⟩ synthEntry (by decide)
  · exact iso_iter_dir_yield_discipline.2.1 ⟨synthFileRec ++ [0], 35⟩ 2048 []
      (synthFileRec ++ [0]) 0 synthEntry (by decide)
  · exact iso_iter_dir_yield_discipline.2.2.1 ⟨synthFileRec ++ [0], 35⟩ 2048 []
      (synthRootRec ++ [0]) 0 34 synthRootParsed [] (by decide) (by decide)
      (by decide) (by rfl) (by decide) (by decide)
  · exact iso_iter_dir_yield_discipline.2.2.2 2048 [[65]] synthRootParsed []
      ⟨synthFileRec ++ [0], 0⟩ 1 (by decide)

theorem fileSeekI_ok_state (f : ByteSource) (off : Int) (f1 : ByteSource)
    (h : fileSeekI f off = .ok f1) : f1.data = f.data ∧ f1.pos = off.toNat := by
  unfold fileSeekI at h
  split at h
  · simp at h
  · simp only [Except.ok.injEq] at h
    rw [← h]
    exact ⟨rfl, rfl⟩

theorem yieldFileEntry_data (f : ByteSource) (ss : Int) (p : List (List Nat))
    (r : DirRecord) : (yieldFileEntry f ss p r).1.data = f.data := by
  unfold yieldFileEntry
  rcases hseek : fileSeekI f ((r.data_location_LE : Int) * ss) with e1 | f1
  · rfl
  · have hf1 := (fileSeekI_ok_state f _ f1 hseek).1
    rcases r.filename with s | b <;> simp [fileRead, hf1]

theorem isoScanGas_file_data :
    ∀ (gas : Nat) (f : ByteSource) (ss : Int) (p : List (List Nat))
      (cd : List Nat) (ind : Nat),
      (isoScanGas gas f ss p cd ind).file.data = f.data := by
  intro gas
  induction gas with
  | zero => intro f ss p cd ind; rfl
  | succ g ih =>
    intro f ss p cd ind
    rw [isoScanGas]
    by_cases h1 : cd.length ≤ ind
    · rw [if_pos h1]
    · rw [if_neg h1]
      dsimp only
      by_cases h2 : cd.getD ind 0 = 0
      · rw [if_pos h2]
      · rw [if_neg h2]
        rcases hp : parse_directory_record (List.take (cd.getD ind 0) (List.drop ind cd))
          with e | ⟨r, w⟩
        · rfl
        · dsimp only
          by_cases hdir : r.file_flags.is_directory = true
          · rw [if_pos hdir]
            by_cases hps : pseudoName r.filename = true
            · rw [if_pos hps]
              exact ih f ss p cd _
            · rw [if_neg hps]
              rcases r.filename with s | b
              · exact ih f ss p cd _
              · rfl
          · rw [if_neg hdir]
            rcases hy : yieldFileEntry f ss p r with ⟨f2, e2 | e2⟩
            · have := yieldFileEntry_data f ss p r
              rw [hy] at this
              exact this
            · dsimp only
              have hd2 := yieldFileEntry_data f ss p r
              rw [hy] at hd2
              rw [ih f2 ss p cd _]
              exact hd2

theorem isoScan_file_data (f : ByteSource) (ss : Int) (p : List (List Nat))
    (cd : List Nat) (ind : Nat) : (isoScan f ss p cd ind).file.data = f.data :=
  isoScanGas_file_data _ f ss p cd ind

theorem isoScanGas_entries_from_yield :
    ∀ (gas : Nat) (f : ByteSource) (ss : Int) (p : List (List Nat))
      (cd : List Nat) (ind : Nat),
      ∀ e ∈ (isoScanGas gas f ss p cd ind).entries,
        ∃ (f0 : ByteSource) (r : DirRecord) (f1 : ByteSource),
          f0.data = f.data ∧ yieldFileEntry f0 ss p r = (f1, .ok e) := by
  intro gas
  induction gas with
  | zero => intro f ss p cd ind e he; simp [isoScanGas] at he
  | succ g ih =>
    intro f ss p cd ind e he
    rw [isoScanGas] at he
    by_cases h1 : cd.length ≤ ind
    · rw [if_pos h1] at he; simp at he
    · rw [if_neg h1] at he
      dsimp only at he
      by_cases h2 : cd.getD ind 0 = 0
      · rw [if_pos h2] at he; simp at he
      · rw [if_neg h2] at he
        rcases hp : parse_directory_record (List.take (cd.getD ind 0) (List.drop ind cd))
          with e1 | ⟨r, w⟩
        · rw [hp] at he; simp at he
        · rw [hp] at he
          dsimp only at he
          by_cases hdir : r.file_flags.is_directory = true
          · rw [if_pos hdir] at he
            by_cases hps : pseudoName r.filename = true
            · rw [if_pos hps] at he
              exact ih f ss p cd _ e he
            · rw [if_neg hps] at he
              rcases hfn : r.filename with s | b
              · rw [hfn] at he
                dsimp only at he
                exact ih f ss p cd _ e he
              · rw [hfn] at he
                simp at he
          · rw [if_neg hdir] at he
            rcases hy : yieldFileEntry f ss p r with ⟨f2, e2 | e2⟩
            · rw [hy] at he; simp at he
            · rw [hy] at he
              dsimp only at he
              have hd2 := yieldFileEntry_data f ss p r
              rw [hy] at hd2
              rcases List.mem_cons.mp he with he2 | he2
              · subst he2
                exact ⟨f, r, f2, rfl, hy⟩
              · obtain ⟨f0, r0, f1, hdata, hy0⟩ := ih f2 ss p cd _ e he2
                exact ⟨f0, r0, f1, hdata.trans hd2, hy0⟩

theorem isoLoop_file_entries_from_yield :
    ∀ (fuel : Nat) (ss : Int) (tv : List (List (List Nat) × DirRecord))
      (f : ByteSource) (e : Entry),
      e ∈ (isoLoop ss tv f fuel).entries → e.payload.isSome = true →
      ∃ (f0 : ByteSource) (p : List (List Nat)) (r : DirRecord) (f1 : ByteSource),
        f0.data = f.data ∧ yieldFileEntry f0 ss p r = (f1, .ok e) := by
  intro fuel
  induction fuel with
  | zero =>
    intro ss tv f e he _
    cases tv with
    | nil => simp [isoLoop] at he
    | cons hd tl => obtain ⟨p, r⟩ := hd; simp [isoLoop] at he
  | succ n ih =>
    intro ss tv f e he hsome
    cases tv with
    | nil => simp [isoLoop] at he
    | cons hd tl =>
      obtain ⟨p, r⟩ := hd
      rw [isoLoop] at he
      dsimp only at he
      have hdirE : ∀ he2 : e ∈ (if p = [] then ([] : List Entry)
          else [⟨p, r.datetime, none⟩]), False := by
        intro he2
        by_cases hp : p = []
        · simp [hp] at he2
        · simp only [if_neg hp, List.mem_singleton] at he2
          rw [he2] at hsome
          simp at hsome
      split at he
      · exact absurd he hdirE
      · next f1 hseek =>
        have hf1 := (fileSeekI_ok_state f _ f1 hseek).1
        split at he
        · next e1 herr =>
          rw [List.mem_append] at he
          rcases he with he | he
          · exact absurd he hdirE
          · obtain ⟨f0, r0, f2, hdata, hy⟩ :=
              isoScanGas_entries_from_yield _ _ ss p _ 0 e he
            exact ⟨f0, p, r0, f2, hdata.trans hf1, hy⟩
        · next hnone =>
          rw [List.mem_append, List.mem_append] at he
          rcases he with (he | he) | he
          · exact absurd he hdirE
          · obtain ⟨f0, r0, f2, hdata, hy⟩ :=
              isoScanGas_entries_from_yield _ _ ss p _ 0 e he
            exact ⟨f0, p, r0, f2, hdata.trans hf1, hy⟩
          · obtain ⟨f0, p0, r0, f2, hdata, hy⟩ := ih ss _ _ e he hsome
            refine ⟨f0, p0, r0, f2, ?_, hy⟩
            rw [hdata, isoScan_file_data]
            exact hf1

/-- C8: for every file entry yielded by ISO iteration over an image that
actually contains the referenced byte range, the payload length equals the
declared `data_length_LE` of the file's directory record.  Part 1: every
entry with a present payload produced by the traversal loop is the output
of the file-yield step (seek to `data_location_LE * sector_size`, read
`data_length_LE`) on a source holding the same image bytes.  Part 2: when
the referenced range lies inside the image, that step's payload has
exactly the declared length. -/
theorem iso_file_payload_length :
    (∀ (fuel : Nat) (ss : Int) (tv : List (List (List Nat) × DirRecord))
        (f : ByteSource) (e : Entry),
      e ∈ (isoLoop ss tv f fuel).entries → e.payload.isSome = true →
      ∃ (f0 : ByteSource) (p : List (List Nat)) (r : DirRecord) (f1 : ByteSource),
        f0.data = f.data ∧ yieldFileEntry f0 ss p r = (f1, .ok e)) ∧
    (∀ (f : ByteSource) (ss : Int) (p : List (List Nat)) (r : DirRecord)
        (f1 : ByteSource) (e : Entry),
      yieldFileEntry f ss p r = (f1, .ok e) →
      ((r.data_location_LE : Int) * ss).toNat + r.data_length_LE ≤ f.data.length →
      e.payload.map List.length = some r.data_length_LE) := by
  constructor
  · exact isoLoop_file_entries_from_yield
  · intro f ss p r f1 e hy hbound
    unfold yieldFileEntry at hy
    rcases hseek : fileSeekI f ((r.data_location_LE : Int) * ss) with e1 | f2
    · rw [hseek] at hy
      simp at hy
    · rw [hseek] at hy
      obtain ⟨hf2d, hf2p⟩ := fileSeekI_ok_state f _ f2 hseek
      rcases hfn : r.filename with s | b
      · rw [hfn] at hy
        simp only [Prod.mk.injEq, Except.ok.injEq] at hy
        obtain ⟨_, he⟩ := hy
        rw [← he]
        simp only [Option.map_some']
        congr 1
        rw [fileRead_length f2 r.data_length_LE, hf2d, hf2p]
        omega
      · rw [hfn] at hy
        simp at hy

/-- C8 witness: the synthetic file record (location 0, declared length 5)
over the 36-byte synthetic source: the yielded payload has length 5. -/
theorem iso_file_payload_length_witness :
    synthEntry.payload.map List.length = some synthFileParsed.data_length_LE ∧
    synthEntry.payload.isSome = true := by
  constructor
  · exact iso_file_payload_length.2 ⟨synthFileRec ++ [0], 35⟩ 2048 [] synthFileParsed
      ⟨synthFileRec ++ [0], 5⟩ synthEntry (by rfl) (by decide)
  · obtain ⟨f0, p0, r0, f1, _, hy⟩ := iso_file_payload_length.1 2 2048
      [([], synthRootParsed)] ⟨synthFileRec ++ [0], 7⟩ synthEntry (by decide) (by decide)
    obtain ⟨c, _, hs⟩ := yieldFileEntry_ok_shape f0 2048 p0 r0 f1 synthEntry hy
    exact hs

theorem yieldFileEntry_ext (f g : ByteSource) (ss : Int) (p : List (List Nat))
    (r : DirRecord) (h : f.data = g.data) :
    (yieldFileEntry f ss p r).2 = (yieldFileEntry g ss p r).2 ∧
    (yieldFileEntry f ss p r).1.data = (yieldFileEntry g ss p r).1.data := by
  unfold yieldFileEntry fileSeekI
  by_cases hoff : ((r.data_location_LE : Int) * ss) < 0
  · rw [if_pos hoff, if_pos hoff]
    exact ⟨rfl, h⟩
  · rw [if_neg hoff, if_neg hoff]
    dsimp only
    rcases r.filename with s | b <;> simp [fileRead, h]

theorem isoScanGas_ext :
    ∀ (gas : Nat) (f g : ByteSource) (ss : Int) (p : List (List Nat))
      (cd : List Nat) (ind : Nat), f.data = g.data →
      (isoScanGas gas f ss p cd ind).entries = (isoScanGas gas g ss p cd ind).entries ∧
      (isoScanGas gas f ss p cd ind).pushes = (isoScanGas gas g ss p cd ind).pushes ∧
      (isoScanGas gas f ss p cd ind).err = (isoScanGas gas g ss p cd ind).err ∧
      (isoScanGas gas f ss p cd ind).file.data = (isoScanGas gas g ss p cd ind).file.data := by
  intro gas
  induction gas with
  | zero => intro f g ss p cd ind h; exact ⟨rfl, rfl, rfl, h⟩
  | succ gs ih =>
    intro f g ss p cd ind h
    rw [isoScanGas, isoScanGas]
    by_cases h1 : cd.length ≤ ind
    · rw [if_pos h1, if_pos h1]
      exact ⟨rfl, rfl, rfl, h⟩
    · rw [if_neg h1, if_neg h1]
      dsimp only
      by_cases h2 : cd.getD ind 0 = 0
      · rw [if_pos h2, if_pos h2]
        exact ⟨rfl, rfl, rfl, h⟩
      · rw [if_neg h2, if_neg h2]
        rcases hp : parse_directory_record (List.take (cd.getD ind 0) (List.drop ind cd))
          with e | ⟨r, w⟩
        · exact ⟨rfl, rfl, rfl, h⟩
        · dsimp only
          by_cases hdir : r.file_flags.is_directory = true
          · rw [if_pos hdir, if_pos hdir]
            by_cases hps : pseudoName r.filename = true
            · rw [if_pos hps, if_pos hps]
              exact ih f g ss p cd _ h
            · rw [if_neg hps, if_neg hps]
              rcases r.filename with s | b
              · dsimp only
                obtain ⟨he, hpu, her, hfd⟩ := ih f g ss p cd (ind + cd.getD ind 0) h
                exact ⟨he, by rw [hpu], her, hfd⟩
              · exact ⟨rfl, rfl, rfl, h⟩
          · rw [if_neg hdir, if_neg hdir]
            obtain ⟨hy2, hy1⟩ := yieldFileEntry_ext f g ss p r h
            rcases hyf : yieldFileEntry f ss p r with ⟨f2, res2⟩
            rcases hyg : yieldFileEntry g ss p r with ⟨g2, res3⟩
            rw [hyf, hyg] at hy2 hy1
            dsimp only at hy2 hy1
            cases res2 with
            | error e2 =>
              rw [← hy2]
              exact ⟨rfl, rfl, rfl, hy1⟩
            | ok e2 =>
              rw [← hy2]
              dsimp only
              obtain ⟨he, hpu, her, hfd⟩ := ih f2 g2 ss p cd (ind + cd.getD ind 0) hy1
              exact ⟨by rw [he], hpu, her, hfd⟩

theorem isoLoop_ext :
    ∀ (fuel : Nat) (ss : Int) (tv : List (List (List Nat) × DirRecord))
      (f g : ByteSource), f.data = g.data →
      (isoLoop ss tv f fuel).entries = (isoLoop ss tv g fuel).entries ∧
      (isoLoop ss tv f fuel).err = (isoLoop ss tv g fuel).err ∧
      (isoLoop ss tv f fuel).file.data = (isoLoop ss tv g fuel).file.data := by
  intro fuel
  induction fuel with
  | zero =>
    intro ss tv f g h
    cases tv with
    | nil => exact ⟨rfl, rfl, h⟩
    | cons hd tl => obtain ⟨p, r⟩ := hd; exact ⟨rfl, rfl, h⟩
  | succ n ih =>
    intro ss tv f g h
    cases tv with
    | nil => exact ⟨rfl, rfl, h⟩
    | cons hd tl =>
      obtain ⟨p, r⟩ := hd
      rw [isoLoop, isoLoop]
      dsimp only
      unfold fileSeekI
      by_cases hoff : ((r.data_location_LE : Int) * ss) < 0
      · rw [if_pos hoff, if_pos hoff]
        exact ⟨rfl, rfl, h⟩
      · rw [if_neg hoff, if_neg hoff]
        dsimp only
        rw [show ({ f with pos := ((r.data_location_LE : Int) * ss).toNat } : ByteSource) =
          ⟨f.data, ((r.data_location_LE : Int) * ss).toNat⟩ from rfl]
        rw [show ({ g with pos := ((r.data_location_LE : Int) * ss).toNat } : ByteSource) =
          ⟨g.data, ((r.data_location_LE : Int) * ss).toNat⟩ from rfl]
        set t := ((r.data_location_LE : Int) * ss).toNat with ht
        set rdf := fileRead ⟨f.data, t⟩ r.data_length_LE with hrdf
        set rdg := fileRead ⟨g.data, t⟩ r.data_length_LE with hrdg
        have hcd : rdf.1 = rdg.1 := by
          rw [hrdf, hrdg]
          simp [fileRead, h]
        have hfd : rdf.2.data = rdg.2.data := by
          rw [hrdf, hrdg]
          simp [fileRead, h]
        rw [hcd]
        obtain ⟨hsce, hscp, hscer, hscf⟩ :=
          isoScanGas_ext (rdg.1.length - 0 + 1) rdf.2 rdg.2 ss p rdg.1 0 hfd
        unfold isoScan
        rcases hler : (isoScanGas (rdg.1.length - 0 + 1) rdg.2 ss p rdg.1 0).err
          with e1 | e1
        · rw [hler] at hscer
          rw [hscer]
          dsimp only
          obtain ⟨hre, hrer, hrf⟩ := ih ss
            ((isoScanGas (rdg.1.length - 0 + 1) rdg.2 ss p rdg.1 0).pushes.reverse ++ tl)
            (isoScanGas (rdg.1.length - 0 + 1) rdf.2 ss p rdg.1 0).file
            (isoScanGas (rdg.1.length - 0 + 1) rdg.2 ss p rdg.1 0).file hscf
          rw [hscp, hsce]
          exact ⟨by rw [hre], by rw [hrer], by rw [hrf]⟩
        · rw [hler] at hscer
          rw [hscer]
          dsimp only
          rw [hsce]
          exact ⟨rfl, rfl, hscf⟩

theorem isoLoop_file_data :
    ∀ (fuel : Nat) (ss : Int) (tv : List (List (List Nat) × DirRecord))
      (f : ByteSource), (isoLoop ss tv f fuel).file.data = f.data := by
  intro fuel
  induction fuel with
  | zero =>
    intro ss tv f
    cases tv with
    | nil => rfl
    | cons hd tl => obtain ⟨p, r⟩ := hd; rfl
  | succ n ih =>
    intro ss tv f
    cases tv with
    | nil => rfl
    | cons hd tl =>
      obtain ⟨p, r⟩ := hd
      rw [isoLoop]
      dsimp only
      rcases hseek : fileSeekI f ((r.data_location_LE : Int) * ss) with e1 | f1
      · rfl
      · have hf1 := (fileSeekI_ok_state f _ f1 hseek).1
        dsimp only
        rcases hler : (isoScan (fileRead f1 r.data_length_LE).2 ss p
            (fileRead f1 r.data_length_LE).1 0).err with e1 | e1
        · rw [ih ss _ (isoScan (fileRead f1 r.data_length_LE).2 ss p
            (fileRead f1 r.data_length_LE).1 0).file, isoScan_file_data]
          exact hf1
        · rw [isoScan_file_data]
          exact hf1

theorem dictInsert_ne_nil (d : List (Nat × List Nat)) (k : Nat) (v : List Nat) :
    dictInsert d k v ≠ [] := by
  cases d with
  | nil => simp [dictInsert]
  | cons hd tl =>
    obtain ⟨k2, v2⟩ := hd
    unfold dictInsert
    split <;> simp

theorem vdLoop_ok_facts :
    ∀ (m : Nat) (f : ByteSource) (n : Int) (acc : List (Nat × List Nat))
      (d : List (Nat × List Nat)) (f3 : ByteSource),
      f.data.length - f.pos = m → vdLoop f n acc = .ok (d, f3) →
      f3.data = f.data ∧ d ≠ [] := by
  intro m
  induction m using Nat.strong_induction_on with
  | _ m ih =>
    intro f n acc d f3 hm h
    rw [vdLoop.eq_def] at h
    split at h
    · simp at h
    · next b rest hh =>
      by_cases hb : b = 255
      · rw [if_pos hb] at h
        simp only [Except.ok.injEq, Prod.mk.injEq] at h
        obtain ⟨hd, hf⟩ := h
        refine ⟨by rw [← hf]; rfl, by rw [← hd]; exact dictInsert_ne_nil _ _ _⟩
      · rw [if_neg hb] at h
        have hmlt := fileReadI_measure f n (by rw [hh]; exact List.cons_ne_nil _ _)
        obtain ⟨hdata, hne⟩ := ih ((fileReadI f n).2.data.length - (fileReadI f n).2.pos)
          (by omega) (fileReadI f n).2 n _ d f3 rfl h
        exact ⟨hdata.trans (fileReadI_data f n), hne⟩

theorem get_volume_descriptors_facts (s : IsoFS) (d : List (Nat × List Nat))
    (s2 : IsoFS) (h : get_volume_descriptors s = .ok (d, s2)) :
    s2.file.data = s.file.data ∧ s2.file.pos = s.file.pos ∧
    s2.volume_descriptors = d ∧ d ≠ [] ∧ s2.system_area = s.system_area := by
  unfold get_volume_descriptors at h
  split at h
  · next hempty =>
    dsimp only at h
    rcases hss : get_sector_size s with e | ⟨ss, s1⟩
    · rw [hss] at h; simp at h
    · rw [hss] at h
      dsimp only at h
      obtain ⟨hvd1, hdata1, hpos1, hssz1, hsa1⟩ := get_sector_size_state s ss s1 hss
      rcases hseek : fileSeekI s1.file (16 * ss) with e | f2
      · rw [hseek] at h; simp at h
      · rw [hseek] at h
        dsimp only at h
        obtain ⟨hf2d, hf2p⟩ := fileSeekI_ok_state s1.file _ f2 hseek
        rcases hloop : vdLoop f2 ss s1.volume_descriptors with e | ⟨d2, f3⟩
        · rw [hloop] at h; simp at h
        · rw [hloop] at h
          dsimp only at h
          simp only [Except.ok.injEq, Prod.mk.injEq] at h
          obtain ⟨hd2, hs2⟩ := h
          obtain ⟨hf3d, hdne⟩ := vdLoop_ok_facts (f2.data.length - f2.pos) f2 ss
            _ d2 f3 rfl hloop
          subst hd2
          rw [← hs2]
          refine ⟨?_, ?_, rfl, hdne, hsa1⟩
          · simp only [fileSeek]
            rw [hf3d, hf2d, hdata1]
          · rfl
  · next hne =>
    simp only [Except.ok.injEq, Prod.mk.injEq] at h
    obtain ⟨hd, hs⟩ := h
    rw [← hs]
    refine ⟨rfl, rfl, by rw [← hd], ?_, rfl⟩
    rw [← hd]
    intro hnil
    rw [hnil] at hne
    simp at hne

theorem get_volume_descriptors_idem (s : IsoFS) (d : List (Nat × List Nat))
    (s2 : IsoFS) (h : get_volume_descriptors s = .ok (d, s2)) :
    get_volume_descriptors s2 = .ok (d, s2) := by
  obtain ⟨_, _, hvd, hdne, _⟩ := get_volume_descriptors_facts s d s2 h
  unfold get_volume_descriptors
  rw [if_neg (by rw [hvd]; simpa using hdne)]
  rw [hvd]

theorem parse_pvd_facts (s : IsoFS) (pvd : Pvd) (w : List Warning) (s2 : IsoFS)
    (h : parse_primary_volume_descriptor s = .ok (some (pvd, w), s2)) :
    s2.file.data = s.file.data ∧ s2.file.pos = s.file.pos ∧
    parse_primary_volume_descriptor s2 = .ok (some (pvd, w), s2) := by
  unfold parse_primary_volume_descriptor get_primary_volume_descriptor at h ⊢
  rcases hg : get_volume_descriptors s with e | ⟨d, s3⟩
  · rw [hg] at h
    simp at h
  · rw [hg] at h
    dsimp only at h
    rcases hd1 : dictGet d 1 with _ | b
    · rw [hd1] at h
      simp at h
    · rw [hd1] at h
      dsimp only at h
      rcases hpp : pvdParse b with e | ⟨pvd2, w2⟩
      · rw [hpp] at h
        simp at h
      · rw [hpp] at h
        simp only [Except.ok.injEq, Prod.mk.injEq, Option.some.injEq] at h
        obtain ⟨⟨hpv, hw⟩, hs⟩ := h
        obtain ⟨hdata, hpos, hvd, hdne, _⟩ := get_volume_descriptors_facts s d s3 hg
        subst hs
        refine ⟨hdata, hpos, ?_⟩
        rw [get_volume_descriptors_idem s d s3 hg]
        dsimp only
        rw [hd1]
        dsimp only
        rw [hpp, hpv, hw]

/-- C9: cursor framing.  Part 1: `read_file` with `return_to_init=true`
leaves the cursor exactly where it was, and does not change the bytes.
Part 2: an ISO iteration that runs to completion restores the cursor to
its pre-iteration position and leaves the image bytes untouched — the
decoder state differs only in its caching fields (`sector_size`,
`system_area`, `volume_descriptors` are the only other fields of the
embedded state). -/
theorem iso_cursor_framing :
    (∀ (f : ByteSource) (offset length : Nat),
      (read_file f offset length true).2.pos = f.pos ∧
      (read_file f offset length true).2.data = f.data) ∧
    (∀ (s : IsoFS) (fuel : Nat) (es : List Entry) (s2 : IsoFS),
      isoIter s fuel = (es, .ok s2) →
      s2.file.pos = s.file.pos ∧ s2.file.data = s.file.data) := by
  constructor
  · intro f offset length
    exact ⟨rfl, rfl⟩
  · intro s fuel es s2 h
    unfold isoIter at h
    rcases hp : parse_primary_volume_descriptor s with e | ⟨opt, s1⟩
    · rw [hp] at h
      simp at h
    · rw [hp] at h
      rcases opt with _ | ⟨pvd, w⟩
      · simp at h
      · dsimp only at h
        rcases hss : s1.sector_size with _ | ss
        · rw [hss] at h
          simp at h
        · rw [hss] at h
          dsimp only at h
          split at h
          · simp at h
          · simp only [Prod.mk.injEq, Except.ok.injEq] at h
            obtain ⟨hes, hs2⟩ := h
            rw [← hs2]
            refine ⟨rfl, ?_⟩
            show (fileSeek (isoLoop ss [([], pvd.root_directory_entry)] s1.file fuel).file
              s.file.pos).data = s.file.data
            simp only [fileSeek]
            rw [isoLoop_file_data]
            exact (parse_pvd_facts s pvd w s1 hp).1

set_option maxRecDepth 20000 in
/-- C9 witness: the synthetic decoder completes one full iteration and the
cursor (parked at 7) is back where it started, over unchanged bytes. -/
theorem iso_cursor_framing_witness :
    isoIter synthIso 3 = ([synthEntry], .ok synthIso) ∧
    (read_file ⟨[5, 6, 7], 1⟩ 0 2 true).2.pos = 1 ∧
    synthIso.file.pos = synthIso.file.pos ∧
    synthIso.file.data = synthIso.file.data := by
  refine ⟨by rfl, ?_, ?_, ?_⟩
  · exact (iso_cursor_framing.1 ⟨[5, 6, 7], 1⟩ 0 2).1
  · exact (iso_cursor_framing.2 synthIso 3 [synthEntry] synthIso (by rfl)).1
  · exact (iso_cursor_framing.2 synthIso 3 [synthEntry] synthIso (by rfl)).2

/-- C10: iterating the same `IsoFS` instance twice sequentially, over an
unchanged byte source, yields two identical entry sequences in identical
order.  A completed first run leaves the decoder in a state from which the
second run reproduces the same output (and the same final state): the
descriptor chain and sector size are served from the caches the first run
filled, and the traversal re-reads the unchanged bytes. -/
theorem iso_iter_idempotent :
    ∀ (s : IsoFS) (fuel : Nat) (out : List Entry) (s2 : IsoFS),
      isoIter s fuel = (out, .ok s2) → isoIter s2 fuel = (out, .ok s2) := by
  intro s fuel out s2 h
  unfold isoIter at h
  rcases hp : parse_primary_volume_descriptor s with e | ⟨opt, s1⟩
  · rw [hp] at h
    simp at h
  · rw [hp] at h
    rcases opt with _ | ⟨pvd, w⟩
    · simp at h
    · dsimp only at h
      rcases hss : s1.sector_size with _ | ss
      · rw [hss] at h
        simp at h
      · rw [hss] at h
        dsimp only at h
        split at h
        · simp at h
        · next hler =>
          simp only [Prod.mk.injEq, Except.ok.injEq] at h
          obtain ⟨hes, hs2⟩ := h
          obtain ⟨hdata, hpos, hidem⟩ := parse_pvd_facts s pvd w s1 hp
          have hfile : fileSeek
              (isoLoop ss [([], pvd.root_directory_entry)] s1.file fuel).file
              s.file.pos = s1.file := by
            show (⟨(isoLoop ss [([], pvd.root_directory_entry)] s1.file fuel).file.data,
              s.file.pos⟩ : ByteSource) = s1.file
            rw [isoLoop_file_data, ← hpos]
          have hs21 : s2 = s1 := by
            rw [← hs2, hfile, ← hss]
          subst hs21
          unfold isoIter
          rw [hidem]
          dsimp only
          rw [hss]
          dsimp only
          rw [hler]
          dsimp only
          have hfile2 : fileSeek
              (isoLoop ss [([], pvd.root_directory_entry)] s2.file fuel).file
              s2.file.pos = s2.file := by
            show (⟨(isoLoop ss [([], pvd.root_directory_entry)] s2.file fuel).file.data,
              s2.file.pos⟩ : ByteSource) = s2.file
            rw [isoLoop_file_data]
          rw [hes, hfile2, ← hss]

set_option maxRecDepth 20000 in
/-- C10 witness: the synthetic decoder's first run completes with one
entry and leaves the state unchanged, so by idempotence the second run
(from that very state) produces the identical sequence. -/
theorem iso_iter_idempotent_witness :
    isoIter synthIso 3 = ([synthEntry], Except.ok synthIso) :=
  iso_iter_idempotent synthIso 3 [synthEntry] synthIso (by rfl)
